import Mathlib

/-!
Verification development for the parfait-gfa GFA loader.

The definitions below are a shallow embedding of the Rust sources
(`src/gfa.rs`, `src/errors.rs`, `src/optional_field.rs`, `src/line/*.rs`).
Pure Rust functions become Lean functions; `&mut self` methods become
functions from the parser state to an updated parser state; Rust panics
(`panic!`, `unwrap`, `expect` on values that can be `None`) are modelled by
an `Option` result where `none` denotes a panic; `HashMap`/`HashSet` become
association lists with overwrite-on-insert semantics (no code path observes
hash iteration order); `i32`/`u32` parsing enforces the 32-bit ranges;
`f32` values are kept as their source text together with a faithful
acceptance predicate, since no code path under verification observes the
numeric value of a float tag.
-/

namespace Parfait

/-- Alias for the character type, used where a constructor name would
shadow it inside a namespace. -/
abbrev CharT := Char

/-- UTF-8 byte size of a character, following the UTF-8 encoding rules that
Rust's `str::len` counts. -/
def charUtf8Size (c : Char) : Nat :=
  if c.toNat < 0x80 then 1
  else if c.toNat < 0x800 then 2
  else if c.toNat < 0x10000 then 3
  else 4

/-- Byte length of a string, as Rust's `str::len`. -/
def utf8Len (s : String) : Nat := s.data.foldl (fun a c => a + charUtf8Size c) 0

/-- UTF-8 encoding of a character as natural-number bytes. -/
def charUtf8Bytes (c : Char) : List Nat :=
  let n := c.toNat
  if n < 0x80 then [n]
  else if n < 0x800 then [0xC0 + n / 0x40, 0x80 + n % 0x40]
  else if n < 0x10000 then
    [0xE0 + n / 0x1000, 0x80 + (n / 0x40) % 0x40, 0x80 + n % 0x40]
  else
    [0xF0 + n / 0x40000, 0x80 + (n / 0x1000) % 0x40,
     0x80 + (n / 0x40) % 0x40, 0x80 + n % 0x40]

/-- The bytes of a string, as Rust's `str::as_bytes`. -/
def utf8Bytes (s : String) : List Nat :=
  s.data.foldr (fun c acc => charUtf8Bytes c ++ acc) []

/-- First byte of a string, if any (`s.as_bytes()[0]` guarded by emptiness). -/
def firstByte (s : String) : Option Nat := (utf8Bytes s).head?

def splitByAux (p : Char → Bool) : List Char → List Char → List String
  | [], acc => [String.mk acc.reverse]
  | c :: rest, acc =>
    if p c then String.mk acc.reverse :: splitByAux p rest []
    else splitByAux p rest (c :: acc)

/-- Rust `str::split` on a character predicate: splits at every matching
character, keeping empty pieces, and yields `[""]` on the empty string. -/
def splitBy (p : Char → Bool) (s : String) : List String := splitByAux p s.data []

def splitOnceAux (c : Char) : List Char → List Char → Option (List Char × List Char)
  | [], _ => none
  | x :: rest, acc =>
    if x = c then some (acc.reverse, rest) else splitOnceAux c rest (x :: acc)

/-- Rust `str::splitn(3, c)` followed by `next().unwrap_or_default()` three
times: the first two pieces and the remainder (which may still contain the
separator). -/
def splitn3 (c : Char) (s : String) : String × String × String :=
  match splitOnceAux c s.data [] with
  | none => (s, "", "")
  | some (a, rest) =>
    match splitOnceAux c rest [] with
    | none => (String.mk a, String.mk rest, "")
    | some (b, rest2) => (String.mk a, String.mk b, String.mk rest2)

def isAsciiDigitChar (c : Char) : Bool := decide (48 ≤ c.toNat ∧ c.toNat ≤ 57)

def isAsciiUppercaseChar (c : Char) : Bool := decide (65 ≤ c.toNat ∧ c.toNat ≤ 90)

def isAsciiLowercaseChar (c : Char) : Bool := decide (97 ≤ c.toNat ∧ c.toNat ≤ 122)

def isAsciiAlphanumericChar (c : Char) : Bool :=
  isAsciiDigitChar c || isAsciiUppercaseChar c || isAsciiLowercaseChar c

/-- Rust `char::is_ascii_graphic`: `'!'..='~'`. -/
def isAsciiGraphicChar (c : Char) : Bool := decide (0x21 ≤ c.toNat ∧ c.toNat ≤ 0x7E)

def byteIsAsciiDigit (b : Nat) : Bool := decide (48 ≤ b ∧ b ≤ 57)

def byteIsAsciiUppercase (b : Nat) : Bool := decide (65 ≤ b ∧ b ≤ 90)

def byteIsAsciiLowercase (b : Nat) : Bool := decide (97 ≤ b ∧ b ≤ 122)

def byteIsAsciiAlphanumeric (b : Nat) : Bool :=
  byteIsAsciiDigit b || byteIsAsciiUppercase b || byteIsAsciiLowercase b

def digitsValAux : List Char → Nat → Option Nat
  | [], acc => some acc
  | c :: rest, acc =>
    if isAsciiDigitChar c then digitsValAux rest (acc * 10 + (c.toNat - 48)) else none

/-- Value of a non-empty all-digit character list. -/
def digitsVal (l : List Char) : Option Nat :=
  if l.isEmpty then none else digitsValAux l 0

/-- Rust `i32::from_str`: optional sign, digits, 32-bit range check. -/
def parseI32 (s : String) : Option Int :=
  let signRest : Int × List Char :=
    match s.data with
    | '+' :: r => (1, r)
    | '-' :: r => (-1, r)
    | r => (1, r)
  match digitsVal signRest.2 with
  | none => none
  | some v =>
    let n : Int := signRest.1 * (v : Int)
    if -2147483648 ≤ n ∧ n ≤ 2147483647 then some n else none

/-- Rust `u32::from_str`: optional `+`, digits, 32-bit range check. -/
def parseU32 (s : String) : Option Nat :=
  let rest : List Char :=
    match s.data with
    | '+' :: r => r
    | r => r
  match digitsVal rest with
  | none => none
  | some v => if v ≤ 4294967295 then some v else none

def toLowerAsciiChar (c : Char) : Char :=
  if 65 ≤ c.toNat ∧ c.toNat ≤ 90 then Char.ofNat (c.toNat + 32) else c

def takeDigits (l : List Char) : List Char × List Char :=
  (l.takeWhile isAsciiDigitChar, l.dropWhile isAsciiDigitChar)

def parseExpPart : List Char → Bool
  | [] => true
  | 'e' :: rest =>
    let rest2 : List Char :=
      match rest with
      | '+' :: r => r
      | '-' :: r => r
      | r => r
    let td := takeDigits rest2
    !td.1.isEmpty && td.2.isEmpty
  | _ => false

def parseSignificandExp (l : List Char) : Bool :=
  let td := takeDigits l
  if td.1.isEmpty then
    match td.2 with
    | '.' :: r =>
      let td2 := takeDigits r
      !td2.1.isEmpty && parseExpPart td2.2
    | _ => false
  else
    match td.2 with
    | '.' :: r => parseExpPart (takeDigits r).2
    | r => parseExpPart r

/-- Acceptance predicate for Rust's `f32::from_str` grammar (the numeric
value itself is unobserved by the code under verification). -/
def parseF32Accept (s : String) : Bool :=
  let l := s.data.map toLowerAsciiChar
  let l2 : List Char :=
    match l with
    | '+' :: r => r
    | '-' :: r => r
    | r => r
  if l2 = ['i', 'n', 'f'] ∨ l2 = ['i', 'n', 'f', 'i', 'n', 'i', 't', 'y'] ∨
      l2 = ['n', 'a', 'n'] then true
  else parseSignificandExp l2

/-- `usize as u32` (wrapping). -/
def u32ofNat (n : Nat) : Nat := n % 4294967296

/-- `usize as i32` (wrapping, two's complement). -/
def i32ofNat (n : Nat) : Int := ((n + 2147483648) % 4294967296 : Nat) - (2147483648 : Int)

/-- Overwrite-insert into an association list (Rust `HashMap::insert`). -/
def mapInsert {α β : Type} [DecidableEq α] (m : List (α × β)) (k : α) (v : β) :
    List (α × β) :=
  (k, v) :: m.filter (fun e => decide (e.1 ≠ k))

/-- Lookup in an association list (Rust `HashMap::get`). -/
def mapLookup {α β : Type} [DecidableEq α] (m : List (α × β)) (k : α) : Option β :=
  (m.find? (fun e => decide (e.1 = k))).map (fun e => e.2)

/-- Insert into a list treated as a set (Rust `HashSet::insert`). -/
def insertSet (l : List String) (s : String) : List String :=
  if l.contains s then l else l ++ [s]

def listStartsWith {α : Type} [DecidableEq α] : List α → List α → Bool
  | _, [] => true
  | [], _ :: _ => false
  | x :: xs, y :: ys => decide (x = y) && listStartsWith xs ys

def listHasInfix {α : Type} [DecidableEq α] : List α → List α → Bool
  | l, pat =>
    if listStartsWith l pat then true
    else
      match l with
      | [] => false
      | _ :: rest => listHasInfix rest pat

/-- Substring containment, as Rust `str::contains(&str)`. -/
def strContainsSub (s pat : String) : Bool := listHasInfix s.data pat.data

/-! ### Diagnostics (`src/errors.rs`) -/

inductive ParseMessageSeverity where
  | Info
  | Warn
  | Severe
  | Error
  | Fatal
deriving DecidableEq

inductive ParseMessageCode where
  | UnspecifiedError
  | InvalidOptionalField
  | InvalidOptionalFieldTag
  | InvalidOptionalFieldType
  | OptionalFieldValueTypeMismatch
  | InvalidOptionalFieldReservedTagType
  | DuplicateOptionalField
  | OptionalFieldValueEmpty
  | UnexpectedReservedTagType
  | InvalidLine
  | IoError
  | DirectoryError
  | UnknownLine
  | MissingVersionTag
  | UnknownVersion
  | DuplicateHeader
  | MissingHeader
  | HeaderNotOnFirstLine
  | SegmentLengthMismatch
  | InvalidSequenceLength
  | NamespaceCollision
  | RedundantSegmentLengthTag
  | RedundantSegmentLengthTagMismatch
  | InvalidSequence
  | IndeterminateSegmentLength
  | SegmentNotFound
  | InvalidOrientation
  | InvalidCIGAR
  | InvalidJumpDistance
  | InvalidShortcut
  | InvalidID
  | InvalidPosition
  | InvalidContainmentPositionRange
  | InvalidExternalReference
  | SelfContainment
  | IsolatedSegment
  | DeadEndTip
  | SelfBridge
  | PathOverlapLengthMismatch
  | InvalidPath
  | InvalidPathStep
  | InvalidPathStepOrientation
  | LinkNotFound
  | BridgeGoesNowhere
  | InvalidHaplotypeIndex
  | InvalidSequenceStart
  | InvalidSequenceEnd
  | InvalidSequenceRange
  | OverlappingWalkRange
  | InvalidWalkStep
  | InvalidWalk
  | WalkLinkHasOverlap
  | InvalidDirectedReference
  | InvalidIntervalPosition
  | InvalidIntervalPositionRange
  | InvalidIntervalPositionSentinel
  | MissingIntervalPositionSentinel
  | InvalidAlignment
  | RedundantEdgeIDTag
  | EdgeIDTagUsedInAnonEdge
  | InvalidGapDistance
  | InvalidVariance
  | GroupMemberNotFound
  | InvalidGroup
deriving DecidableEq

/-- Severity of each code: the first component of
`ParseMessage::get_message` in `src/errors.rs` (the human-readable text is
display-only and not modelled). -/
def ParseMessageCode.getMessageSeverity : ParseMessageCode → ParseMessageSeverity
  | .InvalidLine => .Error
  | .InvalidOptionalField => .Severe
  | .InvalidOptionalFieldType => .Warn
  | .InvalidOptionalFieldTag => .Warn
  | .InvalidOptionalFieldReservedTagType => .Warn
  | .UnexpectedReservedTagType => .Warn
  | .OptionalFieldValueTypeMismatch => .Severe
  | .OptionalFieldValueEmpty => .Warn
  | .DuplicateOptionalField => .Severe
  | .IoError => .Fatal
  | .DirectoryError => .Fatal
  | .UnspecifiedError => .Fatal
  | .UnknownLine => .Info
  | .MissingVersionTag => .Warn
  | .UnknownVersion => .Severe
  | .DuplicateHeader => .Warn
  | .MissingHeader => .Warn
  | .HeaderNotOnFirstLine => .Warn
  | .SegmentLengthMismatch => .Severe
  | .InvalidSequenceLength => .Severe
  | .InvalidSequenceRange => .Severe
  | .NamespaceCollision => .Severe
  | .RedundantSegmentLengthTag => .Warn
  | .RedundantSegmentLengthTagMismatch => .Warn
  | .InvalidSequence => .Severe
  | .IndeterminateSegmentLength => .Severe
  | .SegmentNotFound => .Severe
  | .InvalidOrientation => .Severe
  | .InvalidCIGAR => .Severe
  | .InvalidJumpDistance => .Severe
  | .InvalidGapDistance => .Severe
  | .InvalidShortcut => .Severe
  | .InvalidPosition => .Severe
  | .InvalidContainmentPositionRange => .Severe
  | .SelfContainment => .Warn
  | .IsolatedSegment => .Info
  | .DeadEndTip => .Info
  | .SelfBridge => .Warn
  | .PathOverlapLengthMismatch => .Severe
  | .InvalidPathStep => .Severe
  | .InvalidPathStepOrientation => .Severe
  | .LinkNotFound => .Severe
  | .BridgeGoesNowhere => .Error
  | .InvalidHaplotypeIndex => .Severe
  | .InvalidSequenceStart => .Severe
  | .InvalidSequenceEnd => .Severe
  | .OverlappingWalkRange => .Warn
  | .InvalidWalkStep => .Severe
  | .InvalidWalk => .Error
  | .InvalidPath => .Error
  | .WalkLinkHasOverlap => .Warn
  | .InvalidID => .Severe
  | .InvalidDirectedReference => .Error
  | .InvalidExternalReference => .Severe
  | .InvalidIntervalPosition => .Error
  | .InvalidIntervalPositionRange => .Severe
  | .InvalidIntervalPositionSentinel => .Severe
  | .MissingIntervalPositionSentinel => .Severe
  | .InvalidAlignment => .Severe
  | .RedundantEdgeIDTag => .Warn
  | .EdgeIDTagUsedInAnonEdge => .Warn
  | .InvalidVariance => .Severe
  | .GroupMemberNotFound => .Severe
  | .InvalidGroup => .Severe

structure ParseMessage where
  line : Nat
  code : ParseMessageCode
  offender : String
deriving DecidableEq

def ParseMessage.new (line : Nat) (code : ParseMessageCode) (offender : String) :
    ParseMessage :=
  { line := line, code := code, offender := offender }

def ParseMessage.severity (m : ParseMessage) : ParseMessageSeverity :=
  m.code.getMessageSeverity

/-! ### Optional fields (`src/optional_field.rs`) -/

inductive OptionalFieldNumber where
  | Int8 (v : Int)
  | UInt8 (v : Nat)
  | Int16 (v : Int)
  | UInt16 (v : Nat)
  | Int32 (v : Int)
  | UInt32 (v : Nat)
  | Float32 (raw : String)
deriving DecidableEq

inductive OptionalFieldValue where
  | Char (c : Char)
  | Int (i : Int)
  | Float (raw : String)
  | String (s : String)
  | Json (j : String)
  | ByteArray (b : List Nat)
  | NumberArray (arr : List OptionalFieldNumber)
deriving DecidableEq

inductive FieldType where
  | Char
  | Int
  | Float
  | String
  | Json
  | ByteArray
  | NumberArray
deriving DecidableEq

/-- `FieldType::try_from(char)`. -/
def FieldType.tryFromChar (c : CharT) : Except ParseMessageCode FieldType :=
  match c with
  | 'A' => .ok .Char
  | 'i' => .ok .Int
  | 'f' => .ok .Float
  | 'Z' => .ok .String
  | 'J' => .ok .Json
  | 'H' => .ok .ByteArray
  | 'B' => .ok .NumberArray
  | _ => .error .InvalidOptionalFieldType

def OptionalFieldValue.get_field_type : OptionalFieldValue → FieldType
  | .Char _ => .Char
  | .Int _ => .Int
  | .Float _ => .Float
  | .String _ => .String
  | .Json _ => .Json
  | .ByteArray _ => .ByteArray
  | .NumberArray _ => .NumberArray

structure OptionalField where
  tag : String
  type_ : FieldType
  value : OptionalFieldValue
deriving DecidableEq

/-- Reserved-tag table: expected type and allowed record kinds. -/
def get_reserved_field (tag : String) : Option (FieldType × List Char) :=
  match tag with
  | "VN" => some (.String, ['H'])
  | "TS" => some (.Int, ['H'])
  | "LN" => some (.Int, ['S'])
  | "RC" => some (.Int, ['S', 'L', 'C'])
  | "FC" => some (.Int, ['S', 'L'])
  | "KC" => some (.Int, ['S', 'L'])
  | "SH" => some (.ByteArray, ['S'])
  | "UR" => some (.String, ['S'])
  | "MQ" => some (.Int, ['L'])
  | "NM" => some (.Int, ['L', 'C'])
  | "ID" => some (.String, ['L', 'C', 'J'])
  | "SC" => some (.Int, ['J'])
  | _ => none

/-- `check_optional_field_tag_context`: `some msg` models the `Err` case. -/
def check_optional_field_tag_context (line : Nat) (record_type : Char)
    (tag_type : FieldType) (tag : String) : Option ParseMessage :=
  match get_reserved_field tag with
  | some reserved =>
    if reserved.1 ≠ tag_type then
      some { line := line, code := .InvalidOptionalFieldReservedTagType, offender := tag }
    else if ¬ reserved.2.contains record_type then
      some { line := line, code := .UnexpectedReservedTagType, offender := tag }
    else none
  | none => none

def parseNumberArrayChunks (line : Nat) (chunks : List String) :
    List OptionalFieldNumber × List ParseMessage :=
  chunks.foldl
    (fun acc chunk =>
      match parseI32 chunk with
      | some i => (acc.1 ++ [.Int32 i], acc.2)
      | none =>
        if parseF32Accept chunk then (acc.1 ++ [.Float32 chunk], acc.2)
        else
          (acc.1,
           acc.2 ++ [{ line := line, code := .OptionalFieldValueTypeMismatch,
                       offender := chunk }]))
    ([], [])

def parse_optional_field_value (line : Nat) (ftype : FieldType) (value : String) :
    Option OptionalFieldValue × List ParseMessage :=
  if value.isEmpty then
    (none, [{ line := line, code := .OptionalFieldValueEmpty, offender := "" }])
  else
    match ftype with
    | .Char =>
      match value.data with
      | [c] => (some (.Char c), [])
      | _ =>
        (none, [{ line := line, code := .OptionalFieldValueTypeMismatch,
                  offender := value }])
    | .Int =>
      match parseI32 value with
      | some v => (some (.Int v), [])
      | none =>
        (none, [{ line := line, code := .OptionalFieldValueTypeMismatch,
                  offender := value }])
    | .Float =>
      if parseF32Accept value then (some (.Float value), [])
      else
        (none, [{ line := line, code := .OptionalFieldValueTypeMismatch,
                  offender := value }])
    | .String => (some (.String value), [])
    | .Json => (some (.Json value), [])
    | .ByteArray => (some (.ByteArray (utf8Bytes value)), [])
    | .NumberArray =>
      let r := parseNumberArrayChunks line (splitBy (fun c => c = ',') value)
      (some (.NumberArray r.1), r.2)

def parse_optional_field (line : Nat) (record_type : Char) (field : String) :
    Option OptionalField × List ParseMessage :=
  let pieces := splitn3 ':' field
  let tag := pieces.1
  let type_str := pieces.2.1
  let value := pieces.2.2
  if tag.isEmpty ∨ type_str.isEmpty then
    (none, [{ line := line, code := .InvalidOptionalField, offender := field }])
  else
    let tagShapeErrors : List ParseMessage × Bool :=
      match utf8Bytes tag with
      | [a, b] =>
        if ¬ (byteIsAsciiAlphanumeric a ∧ byteIsAsciiAlphanumeric b ∧
              (byteIsAsciiDigit b ∨ (byteIsAsciiUppercase a = byteIsAsciiUppercase b))) then
          ([{ line := line, code := .InvalidOptionalFieldTag, offender := tag }], true)
        else ([], true)
      | _ =>
        ([{ line := line, code := .InvalidOptionalFieldTag, offender := tag }], false)
    if ¬ tagShapeErrors.2 then (none, tagShapeErrors.1)
    else
      let errors := tagShapeErrors.1
      let type_char := type_str.data.headD 'Z'
      let typeRes : FieldType × List ParseMessage :=
        if utf8Len type_str ≠ 1 then
          (.String,
           [{ line := line, code := .InvalidOptionalFieldType, offender := type_str }])
        else
          match FieldType.tryFromChar type_char with
          | .ok t => (t, [])
          | .error code => (.String, [{ line := line, code := code, offender := type_str }])
      let ftype := typeRes.1
      let errors := errors ++ typeRes.2
      let errors :=
        if isAsciiUppercaseChar (tag.data.headD ' ') then
          match check_optional_field_tag_context line record_type ftype tag with
          | some e => errors ++ [e]
          | none => errors
        else errors
      let valRes := parse_optional_field_value line ftype value
      let errors := errors ++ valRes.2
      match valRes.1 with
      | some v => (some { tag := tag, type_ := ftype, value := v }, errors)
      | none => (none, errors)

def collect_optional_fields (line : Nat) (record_type : String) (fields : List String) :
    List OptionalField × List ParseMessage :=
  let record_type_char := record_type.data.headD ' '
  let r :=
    fields.foldl
      (fun (acc : List OptionalField × List ParseMessage × List String) field =>
        let pr := parse_optional_field line record_type_char field
        let acc :=
          match pr.1 with
          | some f =>
            if acc.2.2.contains f.tag then
              (acc.1,
               acc.2.1 ++ [ParseMessage.new line .DuplicateOptionalField f.tag],
               acc.2.2)
            else (acc.1 ++ [f], acc.2.1, acc.2.2 ++ [f.tag])
          | none => acc
        (acc.1, acc.2.1 ++ pr.2, acc.2.2))
      ([], [], [])
  (r.1, r.2.1)

/-! ### Tag maps (`TagMap` in `src/optional_field.rs`) -/

structure TagMap where
  entries : List (String × OptionalFieldValue)
deriving DecidableEq

def TagMap.new : TagMap := ⟨[]⟩

def TagMap.insert (m : TagMap) (k : String) (v : OptionalFieldValue) : TagMap :=
  ⟨mapInsert m.entries k v⟩

def TagMap.find? (m : TagMap) (k : String) : Option OptionalFieldValue :=
  mapLookup m.entries k

def TagMap.contains (m : TagMap) (k : String) : Bool := (m.find? k).isSome

/-- `TagMap::get::<i32>` (the `TryFrom<&OptionalFieldValue> for i32` impl). -/
def TagMap.getInt? (m : TagMap) (k : String) : Option Int :=
  match m.find? k with
  | some (.Int i) => some i
  | _ => none

/-- `TagMap::get::<String>` (accepts `String` and `Json` values). -/
def TagMap.getString? (m : TagMap) (k : String) : Option String :=
  match m.find? k with
  | some (.String s) => some s
  | some (.Json j) => some j
  | _ => none

def TagMap.from_vec (tags : List OptionalField) : TagMap :=
  tags.foldl (fun m t => m.insert t.tag t.value) TagMap.new

def splitWhitespaceAscii (s : String) : List String :=
  (splitBy (fun c => c = ' ' ∨ c = '\t' ∨ c = '\n' ∨ c = '\r') s).filter
    (fun p => ¬ p.isEmpty)

def TagMap.add_flag (m : TagMap) (flag : String) : TagMap :=
  match m.find? "PF" with
  | some (.String flags) =>
    if (splitWhitespaceAscii flags).any (fun f => f = flag) then m
    else m.insert "PF" (.String (flags ++ " " ++ flag))
  | some _ => m
  | none => m.insert "PF" (.String flag)

def TagMap.has_flag (m : TagMap) (flag : String) : Bool :=
  match m.find? "PF" with
  | some (.String flags) => (splitWhitespaceAscii flags).any (fun f => f = flag)
  | _ => false

/-! ### Versions and options (`src/gfa.rs`) -/

inductive GFAVersion where
  | V1
  | V1_1
  | V1_2
  | V2
  | Unknown
deriving DecidableEq

/-- `From<String> for GFAVersion`. -/
def GFAVersion.fromString (val : String) : GFAVersion :=
  match val with
  | "1.0" => .V1
  | "1.1" => .V1_1
  | "1.2" => .V1_2
  | "2.0" => .V2
  | _ => .Unknown

inductive MissingSegmentOptions where
  | CreateGhost
  | SoftSkip
  | HardSkip
  | Ignore
deriving DecidableEq

inductive MissingBridgeOptions where
  | CreateGhostLink
  | HardSkip
  | Ignore
deriving DecidableEq

structure ParseOptions where
  skip_invalid_sequence_test : Bool
  store_raw_lines : Bool
  store_sequences : Bool
  substitute_path_overlaps : Bool
  handle_missing_segment : MissingSegmentOptions
  handle_missing_bridge : MissingBridgeOptions
  allow_implicit_links : Bool
deriving DecidableEq

/-- `ParseOptions::default`. -/
def ParseOptions.default : ParseOptions :=
  { skip_invalid_sequence_test := false
    store_raw_lines := false
    store_sequences := true
    substitute_path_overlaps := true
    handle_missing_segment := .CreateGhost
    handle_missing_bridge := .CreateGhostLink
    allow_implicit_links := true }

/-! ### Record payload types (`src/line/utils.rs` data types) -/

structure IntervalPosition where
  position : Int
  is_last : Bool
deriving DecidableEq

def IntervalPosition.default : IntervalPosition := { position := 0, is_last := false }

/-- `Display for IntervalPosition`. -/
def IntervalPosition.render (p : IntervalPosition) : String :=
  if p.is_last then toString p.position ++ "$" else toString p.position

structure DirectedReference where
  reference : String
  direction : Bool
deriving DecidableEq

def DirectedReference.default : DirectedReference := { reference := "", direction := false }

/-- `Display for DirectedReference`. -/
def DirectedReference.render (r : DirectedReference) : String :=
  if r.direction then r.reference ++ "+" else r.reference ++ "-"

structure Interval where
  begin_ : IntervalPosition
  end_ : IntervalPosition
deriving DecidableEq

def Interval.default : Interval :=
  { begin_ := IntervalPosition.default, end_ := IntervalPosition.default }

/-- `Display for Interval`. -/
def Interval.render (i : Interval) : String :=
  i.begin_.render ++ ".." ++ i.end_.render

inductive Alignment where
  | CIGAR (cigar : String)
  | Trace (trace : String)
deriving DecidableEq

/-- `Display for Alignment`. -/
def Alignment.render : Alignment → String
  | .CIGAR cigar => cigar
  | .Trace trace => trace

/-! ### Record structures (`src/line/*.rs`) -/

structure Header where
  line_no : Nat
  raw : String
  tags : TagMap
  version : Option String
deriving DecidableEq

structure Segment where
  line_no : Nat
  raw : String
  tags : TagMap
  name : String
  sequence : String
  length : Option Int
  outgoing_links : List Nat
  incoming_links : List Nat
  containments : List Nat
  contained_by : List Nat
  outgoing_jumps : List Nat
  incoming_jumps : List Nat
  outgoing_edges : List Nat
  incoming_edges : List Nat
  outgoing_gaps : List Nat
  incoming_gaps : List Nat
  fragments : List Nat
deriving DecidableEq

/-- `Default for Segment` (custom impl in `segment.rs`). -/
def Segment.default : Segment :=
  { line_no := 0, raw := "", tags := TagMap.new, name := "Segment", sequence := "*",
    length := none, outgoing_links := [], incoming_links := [], containments := [],
    contained_by := [], outgoing_jumps := [], incoming_jumps := [],
    outgoing_edges := [], incoming_edges := [], outgoing_gaps := [],
    incoming_gaps := [], fragments := [] }

structure Link where
  line_no : Nat
  raw : String
  tags : TagMap
  from_segment : String
  from_orientation : Bool
  to_segment : String
  to_orientation : Bool
  overlap : String
deriving DecidableEq

/-- `Default for Link` (custom impl in `link.rs`). -/
def Link.default : Link :=
  { line_no := 0, raw := "", tags := TagMap.new, from_segment := "",
    from_orientation := true, to_segment := "", to_orientation := true,
    overlap := "*" }

structure Jump where
  line_no : Nat
  raw : String
  tags : TagMap
  from_segment : String
  from_orientation : Bool
  to_segment : String
  to_orientation : Bool
  distance : Option Int
deriving DecidableEq

structure Containment where
  line_no : Nat
  raw : String
  tags : TagMap
  container : String
  container_orientation : Bool
  contained : String
  contained_orientation : Bool
  position : Int
  overlap : String
deriving DecidableEq

structure Edge where
  line_no : Nat
  raw : String
  tags : TagMap
  id : Option String
  from_ : DirectedReference
  to_ : DirectedReference
  from_interval : Interval
  to_interval : Interval
  alignment : Option Alignment
deriving DecidableEq

structure Gap where
  line_no : Nat
  raw : String
  tags : TagMap
  id : Option String
  from_ : DirectedReference
  to_ : DirectedReference
  distance : Int
  variance : Option Int
deriving DecidableEq

structure Fragment where
  line_no : Nat
  raw : String
  tags : TagMap
  segment_name : String
  external_name : DirectedReference
  segment_interval : Interval
  fragment_interval : Interval
  alignment : Option Alignment
deriving DecidableEq

structure Step where
  segment_id : Nat
  orientation : Bool
deriving DecidableEq

structure Path where
  line_no : Nat
  raw : String
  tags : TagMap
  name : String
  steps : List Step
  overlaps : List String
deriving DecidableEq

structure Walk where
  line_no : Nat
  raw : String
  tags : TagMap
  sample_id : String
  hap_index : Nat
  seq_id : String
  seq_start : Option Nat
  seq_end : Option Nat
  walk : List Step
deriving DecidableEq

structure OrderedGroup where
  line_no : Nat
  raw : String
  tags : TagMap
  name : String
  members : List String
deriving DecidableEq

structure UnorderedGroup where
  line_no : Nat
  raw : String
  tags : TagMap
  name : String
  members : List String
deriving DecidableEq

inductive GfaRecord where
  | Header (h : Header)
  | Segment (s : Segment)
  | Link (l : Link)
  | Containment (c : Containment)
  | Path (p : Path)
  | Walk (w : Walk)
  | Jump (j : Jump)
  | Fragment (f : Fragment)
  | Edge (e : Edge)
  | Gap (g : Gap)
  | OrderedGroup (o : OrderedGroup)
  | UnorderedGroup (u : UnorderedGroup)
deriving DecidableEq

def GfaRecord.as_header : GfaRecord → Option Parfait.Header
  | .Header h => some h
  | _ => none

def GfaRecord.as_segment : GfaRecord → Option Parfait.Segment
  | .Segment s => some s
  | _ => none

def GfaRecord.as_link : GfaRecord → Option Parfait.Link
  | .Link l => some l
  | _ => none

def GfaRecord.as_containment : GfaRecord → Option Parfait.Containment
  | .Containment c => some c
  | _ => none

def GfaRecord.as_path : GfaRecord → Option Parfait.Path
  | .Path p => some p
  | _ => none

def GfaRecord.as_walk : GfaRecord → Option Parfait.Walk
  | .Walk w => some w
  | _ => none

def GfaRecord.as_jump : GfaRecord → Option Parfait.Jump
  | .Jump j => some j
  | _ => none

def GfaRecord.as_fragment : GfaRecord → Option Parfait.Fragment
  | .Fragment f => some f
  | _ => none

def GfaRecord.as_edge : GfaRecord → Option Parfait.Edge
  | .Edge e => some e
  | _ => none

def GfaRecord.as_gap : GfaRecord → Option Parfait.Gap
  | .Gap g => some g
  | _ => none

def GfaRecord.as_ordered_group : GfaRecord → Option Parfait.OrderedGroup
  | .OrderedGroup o => some o
  | _ => none

def GfaRecord.as_unordered_group : GfaRecord → Option Parfait.UnorderedGroup
  | .UnorderedGroup u => some u
  | _ => none

/-! ### Validation helpers (`src/line/utils.rs`) -/

/-- `is_valid_name` in `utils.rs`. -/
def is_valid_name (name : String) : Bool :=
  name.data.all isAsciiGraphicChar &&
  !name.isEmpty &&
  !strContainsSub name " " &&
  !strContainsSub name "+," &&
  !strContainsSub name "-," &&
  !(name.data.head? = some '*') &&
  !(name.data.head? = some '=')

def byteIsCigarOp (b : Nat) : Bool :=
  decide (b = 77 ∨ b = 73 ∨ b = 68 ∨ b = 78 ∨ b = 83 ∨ b = 72 ∨ b = 80 ∨
    b = 88 ∨ b = 61)

/-- The `while` loop of `is_valid_cigar`, as a structurally recursive state
machine; the flag records whether at least one digit of the current
number-operator unit has been scanned. -/
def isValidCigarAux : Bool → List Nat → Bool
  | false, [] => true
  | true, [] => false
  | false, b :: rest =>
    if byteIsAsciiDigit b then isValidCigarAux true rest else false
  | true, b :: rest =>
    if byteIsAsciiDigit b then isValidCigarAux true rest
    else if byteIsCigarOp b then isValidCigarAux false rest
    else false

/-- `is_valid_cigar`: repeated digit-run + operator in `MIDNSHPX=`.
The empty string is accepted (the `while` loop body never runs). -/
def is_valid_cigar (cigar : String) : Bool := isValidCigarAux false (utf8Bytes cigar)

/-- `is_valid_trace`: `<int>(,<int>)*` with `i32` ints. -/
def is_valid_trace (trace : String) : Bool :=
  if trace.isEmpty then false
  else (splitBy (fun c => c = ',') trace).all
    (fun part => !part.isEmpty && (parseI32 part).isSome)

/-- `deduce_alignment`: `*` is no alignment; otherwise CIGAR, then Trace,
else an `InvalidAlignment` message (built at line 0, patched by callers). -/
def deduce_alignment (alignment : String) :
    Except ParseMessage (Option Alignment) :=
  if alignment = "*" then .ok none
  else if is_valid_cigar alignment then .ok (some (.CIGAR alignment))
  else if is_valid_trace alignment then .ok (some (.Trace alignment))
  else .error (ParseMessage.new 0 .InvalidAlignment alignment)

/-- `parse_directed_reference`. -/
def parse_directed_reference (reference : String) :
    Except ParseMessage DirectedReference :=
  match reference.data.getLast? with
  | none => .error (ParseMessage.new 0 .InvalidDirectedReference reference)
  | some last_char =>
    match last_char with
    | '+' =>
      let name := String.mk reference.data.dropLast
      if ¬ is_valid_name name then
        .error (ParseMessage.new 0 .InvalidDirectedReference reference)
      else .ok { reference := name, direction := true }
    | '-' =>
      let name := String.mk reference.data.dropLast
      if ¬ is_valid_name name then
        .error (ParseMessage.new 0 .InvalidDirectedReference reference)
      else .ok { reference := name, direction := false }
    | _ => .error (ParseMessage.new 0 .InvalidDirectedReference reference)

/-- `parse_position`: on failure pushes a message and yields `none`. -/
def parse_position (n : Nat) (position : String) :
    Option IntervalPosition × List ParseMessage :=
  if position.isEmpty then
    (none, [ParseMessage.new n .InvalidIntervalPosition position])
  else
    let has_postfix := position.data.getLast? = some '$'
    let pos_str := if has_postfix then String.mk position.data.dropLast else position
    match parseI32 pos_str with
    | some pos => (some { position := pos, is_last := has_postfix }, [])
    | none => (none, [ParseMessage.new n .InvalidIntervalPosition position])

/-- `check_interval`: bounds and `$`-sentinel validation against a segment
length; returns the pushed messages. -/
def check_interval (n : Nat) (interval : Interval) (length : Int) (name : String) :
    List ParseMessage :=
  let e1 :=
    if interval.begin_.position > length ∨ interval.end_.position > length then
      [ParseMessage.new n .InvalidIntervalPositionRange
        (interval.render ++ " where L = " ++ toString length ++ " for segment " ++ name)]
    else []
  let e2 :=
    if interval.begin_.is_last ∧ interval.begin_.position ≠ length then
      [ParseMessage.new n .InvalidIntervalPositionSentinel
        ("segment begin: " ++ interval.begin_.render ++ " where L = " ++
          toString length ++ " for segment " ++ name)]
    else []
  let e3 :=
    if interval.end_.is_last ∧ interval.end_.position ≠ length then
      [ParseMessage.new n .InvalidIntervalPositionSentinel
        ("segment end: " ++ interval.end_.render ++ " where L = " ++
          toString length ++ " for segment " ++ name)]
    else []
  let e4 :=
    if ¬ interval.begin_.is_last ∧ interval.begin_.position = length then
      [ParseMessage.new n .MissingIntervalPositionSentinel
        ("segment begin: " ++ interval.begin_.render ++ " where L = " ++
          toString length ++ " for segment " ++ name)]
    else []
  let e5 :=
    if ¬ interval.end_.is_last ∧ interval.end_.position = length then
      [ParseMessage.new n .MissingIntervalPositionSentinel
        ("segment end: " ++ interval.end_.render ++ " where L = " ++
          toString length ++ " for segment " ++ name)]
    else []
  e1 ++ e2 ++ e3 ++ e4 ++ e5

/-! ### Segment methods (`src/line/segment.rs`) -/

/-- `Segment::get_length`: length column, else `LN` tag, else sequence
length (when stored and not `*`), else 0. -/
def Segment.get_length (s : Segment) : Int :=
  match s.length with
  | some l => l
  | none =>
    match s.tags.getInt? "LN" with
    | some l => l
    | none =>
      if s.sequence ≠ "*" ∧ ¬ s.sequence.isEmpty then i32ofNat (utf8Len s.sequence)
      else 0

def Segment.get_outgoing_bridges (s : Segment) : List Nat :=
  s.outgoing_links ++ s.outgoing_jumps ++ s.outgoing_edges ++ s.outgoing_gaps ++
    s.containments

def Segment.get_incoming_bridges (s : Segment) : List Nat :=
  s.incoming_links ++ s.incoming_jumps ++ s.incoming_edges ++ s.incoming_gaps ++
    s.contained_by

/-- `parse_interval`: parses both positions; if either failed, `Err`;
otherwise checks the interval against the segment (when given). The
messages pushed into the shared error vector are returned alongside. -/
def parse_interval (n : Nat) (segment : Option Segment) (bstr estr : String) :
    Except Unit Interval × List ParseMessage :=
  let b := parse_position n bstr
  let e := parse_position n estr
  let errs := b.2 ++ e.2
  if errs.isEmpty then
    match b.1, e.1 with
    | some bv, some ev =>
      let interval : Interval := { begin_ := bv, end_ := ev }
      match segment with
      | some s => (.ok interval, check_interval n interval s.get_length s.name)
      | none => (.ok interval, [])
    | _, _ => (.error (), errs)
  else (.error (), errs)

def GfaRecord.line_no : GfaRecord → Nat
  | .Header r => r.line_no
  | .Segment r => r.line_no
  | .Link r => r.line_no
  | .Containment r => r.line_no
  | .Path r => r.line_no
  | .Walk r => r.line_no
  | .Jump r => r.line_no
  | .Fragment r => r.line_no
  | .Edge r => r.line_no
  | .Gap r => r.line_no
  | .OrderedGroup r => r.line_no
  | .UnorderedGroup r => r.line_no

/-! ### The graph builder (`GfaParser` in `src/gfa.rs`) -/

structure GfaParser where
  records : List GfaRecord
  messages : List ParseMessage
  tag_names : List String
  version : GFAVersion
  trace : Option String
  /-- The `namespace` field (base name → occurrence counter);
  `namespace` is a Lean keyword, hence the underscore. -/
  name_space : List (String × Nat)
  records_index : List (Nat × Nat)
  namespace_index : List (String × Nat)
  max_lines : Nat
deriving DecidableEq

/-- `GfaParser::new` (equals the derived `Default`). -/
def GfaParser.new : GfaParser :=
  { records := [], messages := [], tag_names := [], version := .Unknown,
    trace := none, name_space := [], records_index := [], namespace_index := [],
    max_lines := 0 }

def GfaParser.push_message (st : GfaParser) (m : ParseMessage) : GfaParser :=
  { st with messages := st.messages ++ [m] }

def GfaParser.push_messages (st : GfaParser) (ms : List ParseMessage) : GfaParser :=
  { st with messages := st.messages ++ ms }

/-- `GfaParser::find_record`. -/
def GfaParser.find_record (st : GfaParser) (line_no : Nat) : Option GfaRecord :=
  match mapLookup st.records_index line_no with
  | none => none
  | some idx => st.records.get? idx

/-- `GfaParser::find_segment` (the `impl_enum_find_accessors!` macro). -/
def GfaParser.find_segment (st : GfaParser) (line_no : Nat) : Option Segment :=
  (st.find_record line_no).bind GfaRecord.as_segment

/-- `GfaParser::find_link` (the `impl_enum_find_accessors!` macro). -/
def GfaParser.find_link (st : GfaParser) (line_no : Nat) : Option Link :=
  (st.find_record line_no).bind GfaRecord.as_link

/-- `GfaParser::find_segment_with_name`. -/
def GfaParser.find_segment_with_name (st : GfaParser) (name : String) :
    Option Segment :=
  match mapLookup st.namespace_index name with
  | none => none
  | some idx => (st.records.get? idx).bind GfaRecord.as_segment

/-- `GfaParser::find_path_with_name`. -/
def GfaParser.find_path_with_name (st : GfaParser) (name : String) : Option Path :=
  match mapLookup st.namespace_index name with
  | none => none
  | some idx => (st.records.get? idx).bind GfaRecord.as_path

/-- In-place mutation of the segment found by
`find_segment_with_name` (the `if let Some(seg) = ... { mutate }` pattern). -/
def GfaParser.modify_segment_with_name (st : GfaParser) (name : String)
    (f : Segment → Segment) : GfaParser :=
  match mapLookup st.namespace_index name with
  | none => st
  | some idx =>
    match st.records.get? idx with
    | some (GfaRecord.Segment s) =>
      { st with records := st.records.set idx (GfaRecord.Segment (f s)) }
    | _ => st

/-- `GfaParser::header` — the first `Header` record. -/
def GfaParser.header (st : GfaParser) : Option Header :=
  (st.records.filterMap GfaRecord.as_header).head?

/-- `GfaParser::walks` — all `Walk` records in storage order. -/
def GfaParser.walks (st : GfaParser) : List Walk :=
  st.records.filterMap GfaRecord.as_walk

/-- `GfaParser::is_name_in_namespace`. -/
def GfaParser.is_name_in_namespace (st : GfaParser) (name : String) : Bool :=
  (mapLookup st.name_space name).isSome

/-- `GfaParser::ensure_name_unique`: resolves a collision by bumping the
occurrence counter and suffixing it; registers the result. The generated
name is not itself re-checked against the namespace. -/
def GfaParser.ensure_name_unique (st : GfaParser) (line_no : Nat) (name : String) :
    String × GfaParser :=
  match mapLookup st.name_space name with
  | some occurrence =>
    let st := st.push_message (ParseMessage.new line_no .NamespaceCollision name)
    let st := { st with name_space := mapInsert st.name_space name (occurrence + 1) }
    let new_name := name ++ "_" ++ toString (occurrence + 1)
    let st := { st with name_space := mapInsert st.name_space new_name 0 }
    (new_name, st)
  | none =>
    (name, { st with name_space := mapInsert st.name_space name 0 })

/-- `GfaParser::get_available_line_no` (private): advances `max_lines`. -/
def GfaParser.get_available_line_no (st : GfaParser) : Nat × GfaParser :=
  (st.max_lines + 1, { st with max_lines := st.max_lines + 1 })

/-- `GfaParser::create_ghost_segment`. -/
def GfaParser.create_ghost_segment (st : GfaParser) (segment_name : String) :
    Segment × GfaParser :=
  let ln := st.get_available_line_no
  let line_no := ln.1
  let st := ln.2
  let en := st.ensure_name_unique line_no segment_name
  let reference := en.1
  let st := en.2
  let new_seg : Segment :=
    { Segment.default with
        line_no := line_no, name := reference,
        tags := Segment.default.tags.add_flag "ghost" }
  let st :=
    { st with namespace_index := mapInsert st.namespace_index reference st.records.length }
  let st :=
    { st with records_index := mapInsert st.records_index new_seg.line_no st.records.length }
  let st := { st with records := st.records ++ [GfaRecord.Segment new_seg] }
  (new_seg, st)

/-- `GfaParser::create_ghost_link`. -/
def GfaParser.create_ghost_link (st : GfaParser) (from_segment : String)
    (from_orientation : Bool) (to_segment : String) (to_orientation : Bool)
    (overlap : String) : Link × GfaParser :=
  let ln := st.get_available_line_no
  let st := ln.2
  let new_link : Link :=
    { Link.default with
        line_no := ln.1, from_segment := from_segment,
        from_orientation := from_orientation, to_segment := to_segment,
        to_orientation := to_orientation, overlap := overlap,
        tags := Link.default.tags.add_flag "ghost" }
  let st :=
    { st with records_index := mapInsert st.records_index new_link.line_no st.records.length }
  let st := { st with records := st.records ++ [GfaRecord.Link new_link] }
  (new_link, st)

/-- `GfaParser::push_record_and_update_index` (private). -/
def GfaParser.push_record_and_update_index (st : GfaParser)
    (parsed_line : Option GfaRecord) : GfaParser :=
  match parsed_line with
  | none => st
  | some record =>
    let st :=
      match record with
      | GfaRecord.Segment s =>
        { st with namespace_index := mapInsert st.namespace_index s.name st.records.length }
      | GfaRecord.Path p =>
        { st with namespace_index := mapInsert st.namespace_index p.name st.records.length }
      | GfaRecord.UnorderedGroup ug =>
        { st with namespace_index := mapInsert st.namespace_index ug.name st.records.length }
      | GfaRecord.OrderedGroup og =>
        { st with namespace_index := mapInsert st.namespace_index og.name st.records.length }
      | _ => st
    let st :=
      { st with records_index := mapInsert st.records_index record.line_no st.records.length }
    { st with records := st.records ++ [record] }

/-- `GfaParser::find_isolated_segments` (as the `(line_no, name)` pairs the
caller extracts). -/
def GfaParser.find_isolated_segments (st : GfaParser) : List Segment :=
  (st.records.filterMap GfaRecord.as_segment).filter
    (fun s => s.get_outgoing_bridges.isEmpty && s.get_incoming_bridges.isEmpty)

/-- `GfaParser::find_dead_ends`: the count and the dead-end segments. -/
def GfaParser.find_dead_ends (st : GfaParser) : Nat × List Segment :=
  st.records.foldl
    (fun (acc : Nat × List Segment) r =>
      match r.as_segment with
      | none => acc
      | some s =>
        let d := acc.1 +
          (if s.get_outgoing_bridges.isEmpty then 1 else 0) +
          (if s.get_incoming_bridges.isEmpty then 1 else 0)
        if d ≠ acc.1 then (d, acc.2 ++ [s]) else (d, acc.2))
    (0, [])

/-- `GfaParser::add_info_errors` (private): isolated-segment and dead-end
diagnostics. -/
def GfaParser.add_info_errors (st : GfaParser) : GfaParser :=
  let st :=
    st.find_isolated_segments.foldl
      (fun st s => st.push_message (ParseMessage.new s.line_no .IsolatedSegment s.name))
      st
  st.find_dead_ends.2.foldl
    (fun st s => st.push_message (ParseMessage.new s.line_no .DeadEndTip s.name))
    st

def orientationMark (o : Bool) : String := if o then "+" else "-"

/-- The `bridge_to_segment` extraction in `is_step_valid` (the three
per-field matches share one case split on the record kind; a non-bridge
record is skipped). -/
def bridgeStepData : GfaRecord → Option (String × Bool × Bool)
  | .Link link => some (link.to_segment, link.from_orientation, link.to_orientation)
  | .Jump jump => some (jump.to_segment, jump.from_orientation, jump.to_orientation)
  | .Edge edge => some (edge.to_.reference, edge.from_.direction, edge.to_.direction)
  | .Gap gap => some (gap.to_.reference, gap.from_.direction, gap.to_.direction)
  | _ => none

def GfaParser.is_step_valid_loop (st : GfaParser) (line_no : Nat)
    (from_segment_name to_segment_name : String)
    (from_orientation to_orientation : Bool) (report_overlaps : Bool) :
    List Nat → Bool × GfaParser
  | [] => (false, st)
  | bridge_idx :: rest =>
    match st.find_record bridge_idx with
    | none =>
      st.is_step_valid_loop line_no from_segment_name to_segment_name
        from_orientation to_orientation report_overlaps rest
    | some bridge =>
      match bridgeStepData bridge with
      | none =>
        st.is_step_valid_loop line_no from_segment_name to_segment_name
          from_orientation to_orientation report_overlaps rest
      | some (bridge_to_segment, bridge_from_orientation, bridge_to_orientation) =>
        if bridge_to_segment ≠ to_segment_name then
          st.is_step_valid_loop line_no from_segment_name to_segment_name
            from_orientation to_orientation report_overlaps rest
        else if bridge_from_orientation ≠ from_orientation ∨
            bridge_to_orientation ≠ to_orientation then
          st.is_step_valid_loop line_no from_segment_name to_segment_name
            from_orientation to_orientation report_overlaps rest
        else
          if report_overlaps ∧
              ¬ ((bridge.as_jump).isSome ∨ (bridge.as_gap).isSome) then
            if (bridge.as_link).isSome ∧
                ((bridge.as_link).map Link.overlap = some "0M") then
              (true, st)
            else
              let overlap :=
                match bridge with
                | .Link link => link.overlap
                | .Edge edge => edge.from_interval.render ++ " | " ++ edge.to_interval.render
                | _ => ""
              (true,
               st.push_message
                 (ParseMessage.new line_no .WalkLinkHasOverlap
                   (from_segment_name ++ orientationMark from_orientation ++ " -> " ++
                    to_segment_name ++ orientationMark to_orientation ++
                    " with overlap: " ++ overlap)))
          else (true, st)

/-- `GfaParser::is_step_valid`. -/
def GfaParser.is_step_valid (st : GfaParser) (line_no : Nat)
    (from_segment_name to_segment_name : String)
    (from_orientation to_orientation : Bool)
    (allow_links allow_jumps allow_edges allow_gaps report_overlaps : Bool) :
    Bool × GfaParser :=
  match st.find_segment_with_name from_segment_name with
  | none => (false, st)
  | some from_segment =>
    let candidates :=
      (if allow_links then from_segment.outgoing_links else []) ++
      (if allow_jumps then from_segment.outgoing_jumps else []) ++
      (if allow_edges then from_segment.outgoing_edges else []) ++
      (if allow_gaps then from_segment.outgoing_gaps else [])
    match st.find_segment_with_name to_segment_name with
    | none => (false, st)
    | some _ =>
      st.is_step_valid_loop line_no from_segment_name to_segment_name
        from_orientation to_orientation report_overlaps candidates

/-! ### Bridge reconciliation (`src/line/bridge.rs`) -/

structure GenericBridge where
  from_segment : String
  from_orientation : Bool
  to_segment : String
  to_orientation : Bool
deriving DecidableEq

inductive BridgeType where
  | Jump
  | Link
  | Containment
  | Edge
  | Gap
deriving DecidableEq

/-- `{:?}` rendering of `BridgeType`. -/
def BridgeType.debugRender : BridgeType → String
  | .Jump => "Jump"
  | .Link => "Link"
  | .Containment => "Containment"
  | .Edge => "Edge"
  | .Gap => "Gap"

structure BridgeParts where
  bridge_type : BridgeType
  from_segment : String
  from_orientation : String
  to_segment : String
  to_orientation : String
  overlap : Option String
deriving DecidableEq

/-- Push a bridge line number into the resolved from-segment's outgoing
list for its kind (`bridge.rs` lines 102-110). -/
def registerOutgoing (bt : BridgeType) (n : Nat) (s : Segment) : Segment :=
  match bt with
  | .Link => { s with outgoing_links := s.outgoing_links ++ [n] }
  | .Jump => { s with outgoing_jumps := s.outgoing_jumps ++ [n] }
  | .Containment => { s with containments := s.containments ++ [n] }
  | .Edge => { s with outgoing_edges := s.outgoing_edges ++ [n] }
  | .Gap => { s with outgoing_gaps := s.outgoing_gaps ++ [n] }

/-- Push a bridge line number into the resolved to-segment's incoming list
for its kind (`bridge.rs` lines 112-120). -/
def registerIncoming (bt : BridgeType) (n : Nat) (s : Segment) : Segment :=
  match bt with
  | .Link => { s with incoming_links := s.incoming_links ++ [n] }
  | .Jump => { s with incoming_jumps := s.incoming_jumps ++ [n] }
  | .Containment => { s with contained_by := s.contained_by ++ [n] }
  | .Edge => { s with incoming_edges := s.incoming_edges ++ [n] }
  | .Gap => { s with incoming_gaps := s.incoming_gaps ++ [n] }

/-- `parse_generic_bridge`: shared endpoint lookup, ghost recovery,
adjacency registration, orientation/self-loop checks, `ID` tag namespace
routing and overlap validation. -/
def parse_generic_bridge (gfa : GfaParser) (parts : BridgeParts) (raw : String)
    (n : Nat) (map : TagMap) (options : ParseOptions) :
    Option GenericBridge × List ParseMessage × GfaParser × TagMap :=
  let errors : List ParseMessage := []
  let bridge_type := parts.bridge_type
  let from_segment := parts.from_segment
  let to_segment := parts.to_segment
  let p_from_segment_none := (gfa.find_segment_with_name from_segment).isNone
  let p_to_segment_none := (gfa.find_segment_with_name to_segment).isNone
  let errors :=
    if p_from_segment_none then
      errors ++ [ParseMessage.new n .SegmentNotFound from_segment]
    else errors
  let errors :=
    if p_to_segment_none then
      errors ++ [ParseMessage.new n .SegmentNotFound to_segment]
    else errors
  let recovery :
      Option (List ParseMessage × GfaParser × String × String) :=
    if p_from_segment_none ∨ p_to_segment_none then
      let errors :=
        if p_from_segment_none ∧ p_to_segment_none then
          errors ++ [ParseMessage.new n .BridgeGoesNowhere
            ("(" ++ bridge_type.debugRender ++ ") / " ++ from_segment ++ " and " ++
             to_segment)]
        else errors
      if options.handle_missing_segment ≠ .Ignore then
        if options.handle_missing_segment ≠ .CreateGhost then none
        else
          let r1 : GfaParser × String :=
            if p_from_segment_none then
              let g := gfa.create_ghost_segment from_segment
              (g.2, g.1.name)
            else (gfa, from_segment)
          let r2 : GfaParser × String :=
            if p_to_segment_none then
              let g := r1.1.create_ghost_segment to_segment
              (g.2, g.1.name)
            else (r1.1, to_segment)
          some (errors, r2.1, r1.2, r2.2)
      else some (errors, gfa, from_segment, to_segment)
    else some (errors, gfa, from_segment, to_segment)
  match recovery with
  | none =>
    -- Hard/soft skip on a missing segment: abort with the errors so far.
    (none,
     (if p_from_segment_none ∧ p_to_segment_none then
        errors ++ [ParseMessage.new n .BridgeGoesNowhere
          ("(" ++ bridge_type.debugRender ++ ") / " ++ from_segment ++ " and " ++
           to_segment)]
      else errors),
     gfa, map)
  | some (errors, gfa, from_segment, to_segment) =>
    let gfa := gfa.modify_segment_with_name from_segment (registerOutgoing bridge_type n)
    let gfa := gfa.modify_segment_with_name to_segment (registerIncoming bridge_type n)
    let errors :=
      if parts.from_orientation ≠ "-" ∧ parts.from_orientation ≠ "+" then
        errors ++ [ParseMessage.new n .InvalidOrientation parts.from_orientation]
      else errors
    let errors :=
      if parts.to_orientation ≠ "-" ∧ parts.to_orientation ≠ "+" then
        errors ++ [ParseMessage.new n .InvalidOrientation parts.to_orientation]
      else errors
    let from_orientation := parts.from_orientation ≠ "-"
    let to_orientation := parts.to_orientation ≠ "-"
    let errors :=
      if from_segment = to_segment then
        let code :=
          match bridge_type with
          | .Containment => ParseMessageCode.SelfContainment
          | _ => ParseMessageCode.SelfBridge
        errors ++ [ParseMessage.new n code raw]
      else errors
    let idStep : GfaParser × TagMap :=
      if ¬ (bridge_type = .Edge ∨ bridge_type = .Gap) then
        match map.getString? "ID" with
        | some edge_id =>
          if ¬ is_valid_name edge_id then
            (gfa.push_message (ParseMessage.new n .InvalidID edge_id), map)
          else
            let u := gfa.ensure_name_unique n edge_id
            (u.2, map.insert "ID" (.String u.1))
        | none => (gfa, map)
      else (gfa, map)
    let gfa := idStep.1
    let map := idStep.2
    let errors :=
      match parts.overlap with
      | some overlap =>
        if overlap ≠ "*" ∧ ¬ is_valid_cigar overlap then
          errors ++ [ParseMessage.new n .InvalidCIGAR overlap]
        else errors
      | none => errors
    (some { from_segment := from_segment, from_orientation := from_orientation,
            to_segment := to_segment, to_orientation := to_orientation },
     errors, gfa, map)

/-! ### Per-kind record parsers (`src/line/*.rs`).

Each `parse_line` takes the builder, the tab-split columns, the raw line,
the line number, the tag map and the options, and returns the parsed record
(or `none` for a rejected line), the diagnostics, and the updated builder
and tag map. The outer `Option` models a Rust panic. -/

def REQ_COLUMNS_HEADER : Nat := 1
def REQ_COLUMNS_LINK : Nat := 6
def REQ_COLUMNS_CONTAIN : Nat := 7
def REQ_COLUMNS_PATH : Nat := 4
def REQ_COLUMNS_WALK : Nat := 7
def REQ_COLUMNS_JUMP : Nat := 6
def REQ_COLUMNS_FRAGMENT : Nat := 8
def REQ_COLUMNS_EDGE : Nat := 9
def REQ_COLUMNS_GAP : Nat := 6
def REQ_COLUMNS_ORDERED : Nat := 3
def REQ_COLUMNS_UNORDERED : Nat := 3

def Header.parse_line (gfa : GfaParser) (_parts : List String) (raw : String)
    (n : Nat) (map : TagMap) (_options : ParseOptions) :
    Option (Option Header × List ParseMessage × GfaParser × TagMap) :=
  let errors : List ParseMessage := []
  let is_duplicate_header := gfa.records.any (fun r => r.as_header.isSome)
  let errors :=
    if is_duplicate_header then
      errors ++ [ParseMessage.new n .DuplicateHeader raw]
    else errors
  let valid_versions := ["1", "1.0", "1.1", "1.2", "2", "2.0"]
  let step1 : List ParseMessage × TagMap :=
    if map.contains "VN" &&
        !(match map.getString? "VN" with
          | some v => valid_versions.contains v
          | none => false) then
      (errors ++ [ParseMessage.new n .UnknownVersion raw],
       map.insert "VN" (.String "1.0"))
    else (errors, map)
  let errors := step1.1
  let map := step1.2
  let step2 : List ParseMessage × TagMap :=
    if (map.getString? "VN").isNone then
      (errors ++ [ParseMessage.new n .MissingVersionTag raw],
       map.insert "VN" (.String "1.0"))
    else (errors, map)
  let errors := step2.1
  let map := step2.2
  let gfaStep : Option GfaParser :=
    if ¬ is_duplicate_header then
      match map.getString? "VN" with
      | none => none
      | some v =>
        let gfa := { gfa with version := GFAVersion.fromString v }
        some (if map.contains "TS" then { gfa with trace := map.getString? "TS" } else gfa)
    else some gfa
  match gfaStep with
  | none => none
  | some gfa =>
    some (some { line_no := n, raw := raw, tags := map, version := map.getString? "VN" },
          errors, gfa, map)

def Segment.parse_line (gfa : GfaParser) (parts : List String) (raw : String)
    (n : Nat) (map : TagMap) (options : ParseOptions) :
    Option (Option Segment × List ParseMessage × GfaParser × TagMap) :=
  match parts.get? 1 with
  | none => none
  | some part1 =>
    if ¬ is_valid_name part1 then
      some (none, [ParseMessage.new n .InvalidID part1], gfa, map)
    else
      let en := gfa.ensure_name_unique n part1
      let name := en.1
      let gfa := en.2
      let ln_tag := map.getInt? "LN"
      let version := gfa.version
      let body : Option (Option Int × String × List ParseMessage) :=
        if version = GFAVersion.V2 then
          match parts.get? 3, parts.get? 2 with
          | some part3, some part2 =>
            let sequence := part3
            let lenRes : Int × List ParseMessage :=
              match parseI32 part2 with
              | some v => (v, [])
              | none =>
                (i32ofNat (utf8Len sequence),
                 [ParseMessage.new n .InvalidSequenceLength raw])
            let length := some lenRes.1
            let errors := lenRes.2
            let errors :=
              if ln_tag.isSome then
                if ln_tag ≠ length then
                  errors ++ [ParseMessage.new n .RedundantSegmentLengthTagMismatch raw]
                else
                  errors ++ [ParseMessage.new n .RedundantSegmentLengthTag raw]
              else errors
            some (length, sequence, errors)
          | _, _ => none
        else
          match parts.get? 2 with
          | some part2 =>
            let sequence := part2
            let errors : List ParseMessage :=
              if ln_tag.isSome then
                if sequence ≠ "*" ∧ ln_tag ≠ some (i32ofNat (utf8Len sequence)) then
                  [ParseMessage.new n .SegmentLengthMismatch raw]
                else []
              else if sequence = "*" ∨ sequence.isEmpty then
                [ParseMessage.new n .IndeterminateSegmentLength raw]
              else []
            some (none, sequence, errors)
          | none => none
      match body with
      | none => none
      | some (length, sequence, errors) =>
        let errors :=
          if ¬ options.skip_invalid_sequence_test then
            let bytes := utf8Bytes sequence
            if ¬ (bytes.length = 1 ∧ bytes.head? = some 42) ∧
                bytes.any (fun b => decide (b < 33 ∨ b > 126)) then
              errors ++ [ParseMessage.new n .InvalidSequence raw]
            else errors
          else errors
        let map :=
          if ¬ options.store_sequences then
            if ln_tag.isNone ∧ version ≠ GFAVersion.V2 ∧ sequence ≠ "*" then
              map.insert "LN" (.Int (i32ofNat (utf8Len sequence)))
            else map
          else map
        some (some
          { Segment.default with
              line_no := n, raw := raw, tags := map, name := name,
              sequence := if options.store_sequences then sequence else "*",
              length := length },
          errors, gfa, map)

def Link.parse_line (gfa : GfaParser) (parts : List String) (raw : String)
    (n : Nat) (map : TagMap) (options : ParseOptions) :
    Option (Option Link × List ParseMessage × GfaParser × TagMap) :=
  match parts.get? 1, parts.get? 2, parts.get? 3, parts.get? 4, parts.get? 5 with
  | some p1, some p2, some p3, some p4, some p5 =>
    let r := parse_generic_bridge gfa
      { bridge_type := .Link, from_segment := p1, from_orientation := p2,
        to_segment := p3, to_orientation := p4, overlap := some p5 }
      raw n map options
    match r.1 with
    | none => some (none, r.2.1, r.2.2.1, r.2.2.2)
    | some link =>
      some (some
        { line_no := n, raw := raw, tags := r.2.2.2,
          from_segment := link.from_segment,
          from_orientation := link.from_orientation,
          to_segment := link.to_segment,
          to_orientation := link.to_orientation,
          overlap := p5 },
        r.2.1, r.2.2.1, r.2.2.2)
  | _, _, _, _, _ => none

def Jump.parse_line (gfa : GfaParser) (parts : List String) (raw : String)
    (n : Nat) (map : TagMap) (options : ParseOptions) :
    Option (Option Jump × List ParseMessage × GfaParser × TagMap) :=
  match parts.get? 1, parts.get? 2, parts.get? 3, parts.get? 4, parts.get? 5 with
  | some p1, some p2, some p3, some p4, some p5 =>
    let r := parse_generic_bridge gfa
      { bridge_type := .Jump, from_segment := p1, from_orientation := p2,
        to_segment := p3, to_orientation := p4, overlap := none }
      raw n map options
    match r.1 with
    | none => some (none, r.2.1, r.2.2.1, r.2.2.2)
    | some jump =>
      let errors := r.2.1
      let gfa := r.2.2.1
      let map := r.2.2.2
      let errors :=
        match map.getInt? "SC" with
        | some sc =>
          if sc ≠ 0 ∧ sc ≠ 1 then
            errors ++ [ParseMessage.new n .InvalidShortcut (toString sc)]
          else errors
        | none => errors
      let distRes : Option Int × List ParseMessage :=
        if p5 = "*" then (none, errors)
        else
          match parseI32 p5 with
          | some v => (some v, errors)
          | none => (none, errors ++ [ParseMessage.new n .InvalidJumpDistance p5])
      some (some
        { line_no := n, raw := raw, tags := map,
          from_segment := jump.from_segment,
          from_orientation := jump.from_orientation,
          to_segment := jump.to_segment,
          to_orientation := jump.to_orientation,
          distance := distRes.1 },
        distRes.2, gfa, map)
  | _, _, _, _, _ => none

def Containment.parse_line (gfa : GfaParser) (parts : List String) (raw : String)
    (n : Nat) (map : TagMap) (options : ParseOptions) :
    Option (Option Containment × List ParseMessage × GfaParser × TagMap) :=
  match parts.get? 1, parts.get? 2, parts.get? 3, parts.get? 4, parts.get? 5,
      parts.get? 6 with
  | some p1, some p2, some p3, some p4, some p5, some p6 =>
    let r := parse_generic_bridge gfa
      { bridge_type := .Containment, from_segment := p1, from_orientation := p2,
        to_segment := p3, to_orientation := p4, overlap := some p6 }
      raw n map options
    match r.1 with
    | none => some (none, r.2.1, r.2.2.1, r.2.2.2)
    | some containment =>
      let errors := r.2.1
      let gfa := r.2.2.1
      let map := r.2.2.2
      let posRes : Int × List ParseMessage :=
        match parseI32 p5 with
        | some p => (p, errors)
        | none => (0, errors ++ [ParseMessage.new n .InvalidPosition p5])
      let position := posRes.1
      let errors := posRes.2
      let errors :=
        match gfa.find_segment_with_name p1 with
        | some container_segment =>
          if position < 0 ∨ position > container_segment.get_length then
            errors ++ [ParseMessage.new n .InvalidPosition p5]
          else errors
        | none => errors
      some (some
        { line_no := n, raw := raw, tags := map,
          container := containment.from_segment,
          container_orientation := containment.from_orientation,
          contained := containment.to_segment,
          contained_orientation := containment.to_orientation,
          position := position, overlap := p6 },
        errors, gfa, map)
  | _, _, _, _, _, _ => none

/-- The shared `edge_id` / `gap_id` resolution of `edge.rs` / `gap.rs`:
identifier column versus `ID` tag, then validity check and namespace
routing. Returns `none` on the `unwrap` panic (an `ID` tag that is not a
string). -/
def resolveEdgeId (gfa : GfaParser) (part1 : String) (n : Nat) (map : TagMap)
    (errors : List ParseMessage) :
    Option (Option String × List ParseMessage × GfaParser) :=
  let step1 : Option (Option String × List ParseMessage) :=
    if map.contains "ID" then
      match map.getString? "ID" with
      | none => none
      | some idval =>
        if part1 ≠ "*" then
          some (some part1, errors ++ [ParseMessage.new n .RedundantEdgeIDTag idval])
        else
          some (map.getString? "ID",
                errors ++ [ParseMessage.new n .EdgeIDTagUsedInAnonEdge idval])
    else
      some (if part1 = "*" then none else some part1, errors)
  match step1 with
  | none => none
  | some (edge_id, errors) =>
    match edge_id with
    | none => some (none, errors, gfa)
    | some id =>
      if is_valid_name id then
        let u := gfa.ensure_name_unique n id
        some (some u.1, errors, u.2)
      else
        some (none, errors ++ [ParseMessage.new n .InvalidID id], gfa)

def Edge.parse_line (gfa : GfaParser) (parts : List String) (raw : String)
    (n : Nat) (map : TagMap) (options : ParseOptions) :
    Option (Option Edge × List ParseMessage × GfaParser × TagMap) :=
  match parts.get? 1, parts.get? 2, parts.get? 3, parts.get? 4, parts.get? 5,
      parts.get? 6, parts.get? 7, parts.get? 8 with
  | some p1, some p2, some p3, some p4, some p5, some p6, some p7, some p8 =>
    match parse_directed_reference p2 with
    | .error e => some (none, [{ e with line := n }], gfa, map)
    | .ok from0 =>
      match parse_directed_reference p3 with
      | .error e => some (none, [{ e with line := n }], gfa, map)
      | .ok to0 =>
        let r := parse_generic_bridge gfa
          { bridge_type := .Edge, from_segment := from0.reference,
            from_orientation := orientationMark from0.direction,
            to_segment := to0.reference,
            to_orientation := orientationMark to0.direction, overlap := none }
          raw n map options
        match r.1 with
        | none => some (none, r.2.1, r.2.2.1, r.2.2.2)
        | some edge =>
          let errors := r.2.1
          let gfa := r.2.2.1
          let map := r.2.2.2
          let from1 : DirectedReference :=
            { reference := edge.from_segment, direction := edge.from_orientation }
          let to1 : DirectedReference :=
            { reference := edge.to_segment, direction := edge.to_orientation }
          match resolveEdgeId gfa p1 n map errors with
          | none => none
          | some (edge_id, errors, gfa) =>
            let from_segment := gfa.find_segment_with_name from1.reference
            let fi := parse_interval n from_segment p4 p5
            let errors := errors ++ fi.2
            let to_segment := gfa.find_segment_with_name to1.reference
            let ti := parse_interval n to_segment p6 p7
            let errors := errors ++ ti.2
            match fi.1, ti.1 with
            | .ok from_interval, .ok to_interval =>
              let alnRes : Option Alignment × List ParseMessage :=
                match deduce_alignment p8 with
                | .ok a => (a, errors)
                | .error e => (none, errors ++ [{ e with line := n }])
              some (some
                { line_no := n, raw := raw, tags := map, id := edge_id,
                  from_ := from1, to_ := to1, from_interval := from_interval,
                  to_interval := to_interval, alignment := alnRes.1 },
                alnRes.2, gfa, map)
            | _, _ => some (none, errors, gfa, map)
  | _, _, _, _, _, _, _, _ => none

def Gap.parse_line (gfa : GfaParser) (parts : List String) (raw : String)
    (n : Nat) (map : TagMap) (options : ParseOptions) :
    Option (Option Gap × List ParseMessage × GfaParser × TagMap) :=
  match parts.get? 1, parts.get? 2, parts.get? 3, parts.get? 4, parts.get? 5 with
  | some p1, some p2, some p3, some p4, some p5 =>
    match parse_directed_reference p2 with
    | .error e => some (none, [{ e with line := n }], gfa, map)
    | .ok from0 =>
      match parse_directed_reference p3 with
      | .error e => some (none, [{ e with line := n }], gfa, map)
      | .ok to0 =>
        let r := parse_generic_bridge gfa
          { bridge_type := .Gap, from_segment := from0.reference,
            from_orientation := orientationMark from0.direction,
            to_segment := to0.reference,
            to_orientation := orientationMark to0.direction, overlap := none }
          raw n map options
        match r.1 with
        | none => some (none, r.2.1, r.2.2.1, r.2.2.2)
        | some gap =>
          let errors := r.2.1
          let gfa := r.2.2.1
          let map := r.2.2.2
          let from1 : DirectedReference :=
            { reference := gap.from_segment, direction := gap.from_orientation }
          let to1 : DirectedReference :=
            { reference := gap.to_segment, direction := gap.to_orientation }
          match resolveEdgeId gfa p1 n map errors with
          | none => none
          | some (gap_id, errors, gfa) =>
            let distRes : Int × List ParseMessage :=
              match parseI32 p4 with
              | some v => (v, errors)
              | none => (0, errors ++ [ParseMessage.new n .InvalidGapDistance p4])
            let varRes : Option Int × List ParseMessage :=
              if p5 = "*" then (none, distRes.2)
              else
                match parseI32 p5 with
                | some v => (some v, distRes.2)
                | none => (none, distRes.2 ++ [ParseMessage.new n .InvalidVariance p5])
            some (some
              { line_no := n, raw := raw, tags := map, id := gap_id,
                from_ := from1, to_ := to1, distance := distRes.1,
                variance := varRes.1 },
              varRes.2, gfa, map)
  | _, _, _, _, _ => none

def Fragment.parse_line (gfa : GfaParser) (parts : List String) (raw : String)
    (n : Nat) (map : TagMap) (options : ParseOptions) :
    Option (Option Fragment × List ParseMessage × GfaParser × TagMap) :=
  match parts.get? 1, parts.get? 2, parts.get? 3, parts.get? 4, parts.get? 5,
      parts.get? 6, parts.get? 7 with
  | some p1, some p2, some p3, some p4, some p5, some p6, some p7 =>
    let errors : List ParseMessage := []
    let segment := gfa.find_segment_with_name p1
    let recovery : Option (List ParseMessage × GfaParser) :=
      if segment.isNone then
        let errors := errors ++ [ParseMessage.new n .SegmentNotFound p1]
        match options.handle_missing_segment with
        | .Ignore => some (errors, gfa)
        | .HardSkip => none
        | .SoftSkip => none
        | .CreateGhost => some (errors, (gfa.create_ghost_segment p1).2)
      else some (errors, gfa)
    match recovery with
    | none =>
      some (none, [ParseMessage.new n .SegmentNotFound p1], gfa, map)
    | some (errors, gfa) =>
      let gfa := gfa.modify_segment_with_name p1
        (fun s => { s with fragments := s.fragments ++ [n] })
      let referenced_segment := gfa.find_segment_with_name p1
      let extRes : DirectedReference × List ParseMessage :=
        match parse_directed_reference p2 with
        | .ok e => (e, errors)
        | .error e =>
          ({ reference := p1, direction := true }, errors ++ [{ e with line := n }])
      let external := extRes.1
      let errors := extRes.2
      let si := parse_interval n referenced_segment p3 p4
      let errors := errors ++ si.2
      let fi := parse_interval n none p5 p6
      let errors := errors ++ fi.2
      match si.1, fi.1 with
      | .ok segment_interval, .ok fragment_interval =>
        let alnRes : Option Alignment × List ParseMessage :=
          match deduce_alignment p7 with
          | .ok a => (a, errors)
          | .error e => (none, errors ++ [{ e with line := n }])
        some (some
          { line_no := n, raw := raw, tags := map, segment_name := p1,
            external_name := external, segment_interval := segment_interval,
            fragment_interval := fragment_interval, alignment := alnRes.1 },
          alnRes.2, gfa, map)
      | _, _ => some (none, errors, gfa, map)
  | _, _, _, _, _, _, _ => none

/-! ### Groups (`src/line/group.rs`, `ordered.rs`, `unordered.rs`) -/

structure GenericGroup where
  name : String
  members : List String
deriving DecidableEq

inductive GroupType where
  | UnorderedGroup
  | OrderedGroup
deriving DecidableEq

def parse_generic_group (gfa : GfaParser) (group_type : GroupType)
    (name_part members_part : String) (n : Nat) (options : ParseOptions) :
    Option GenericGroup × List ParseMessage × GfaParser :=
  let nameRes : String × GfaParser :=
    if name_part ≠ "*" then gfa.ensure_name_unique n name_part
    else
      let group_type_str := if group_type = .OrderedGroup then "O" else "U"
      gfa.ensure_name_unique n ("anon_" ++ group_type_str ++ "_" ++ toString n)
  let name := nameRes.1
  let gfa := nameRes.2
  let members_str := splitBy (fun c => c = ' ') members_part
  let loop : Except (List ParseMessage) (List String × List ParseMessage) :=
    members_str.foldl
      (fun acc member =>
        match acc with
        | .error e => .error e
        | .ok (members, errors) =>
          let member_name := String.mk
            ((member.data.reverse.dropWhile (fun c => c = '+' ∨ c = '-')).reverse)
          let record_exists := gfa.is_name_in_namespace member_name
          if ¬ record_exists then
            let errors := errors ++ [ParseMessage.new n .GroupMemberNotFound member]
            if options.handle_missing_segment = .HardSkip then
              .error (errors ++ [ParseMessage.new n .InvalidGroup member])
            else .ok (members ++ [member], errors)
          else .ok (members ++ [member], errors))
      (.ok ([], []))
  match loop with
  | .error errors => (none, errors, gfa)
  | .ok (members, errors) =>
    (some { name := name, members := members }, errors, gfa)

def OrderedGroup.parse_line (gfa : GfaParser) (parts : List String) (raw : String)
    (n : Nat) (map : TagMap) (options : ParseOptions) :
    Option (Option OrderedGroup × List ParseMessage × GfaParser × TagMap) :=
  match parts.get? 1, parts.get? 2 with
  | some p1, some p2 =>
    let r := parse_generic_group gfa .OrderedGroup p1 p2 n options
    match r.1 with
    | none => some (none, r.2.1, r.2.2, map)
    | some g =>
      some (some { line_no := n, raw := raw, tags := map, name := g.name,
                   members := g.members },
            r.2.1, r.2.2, map)
  | _, _ => none

/-! ### Path parsing (`src/line/path.rs`) -/

def stripSuffixChar (s : String) (c : Char) : Option String :=
  if s.data.getLast? = some c then some (String.mk s.data.dropLast) else none

/-- Rust `str::trim_end_matches(['+', '-'])`: drop all trailing `+`/`-`. -/
def trimEndPM (s : String) : String :=
  String.mk ((s.data.reverse.dropWhile (fun c => c = '+' ∨ c = '-')).reverse)

def endsWithPlus (s : String) : Bool := s.data.getLast? = some '+'

structure PathLoopState where
  errors : List ParseMessage
  overlaps_str : List String
  steps : List Step
  prev_step : Option Step
  gfa : GfaParser
deriving DecidableEq

/-- The flag-computing loop over the current step's incoming links
(`path.rs` lines 184-206); `none` models the `find_link_mut(..).expect`
panic. -/
def pathLinkFlagsAux (gfa : GfaParser) (prevName currName : String)
    (prevOr currOr : Bool) : List Nat → Bool → Bool → Option (Bool × Bool)
  | [], fl, fi => some (fl, fi)
  | link_no :: rest, fl, fi =>
    match gfa.find_link link_no with
    | none => none
    | some link =>
      let fl := fl ||
        (link.from_segment == prevName && link.to_segment == currName &&
         (prevOr == link.from_orientation) && (currOr == link.to_orientation))
      let fi := fi ||
        (link.from_segment == prevName && link.to_segment == currName &&
         (prevOr == !link.to_orientation) && (currOr == !link.from_orientation))
      pathLinkFlagsAux gfa prevName currName prevOr currOr rest fl fi

inductive PathResolve where
  | panicked
  | early (errors : List ParseMessage) (gfa : GfaParser)
  | cont (st : PathLoopState)
  | proceed (seg : Segment) (st : PathLoopState)

/-- Missing-segment resolution for one path step (`path.rs` lines 127-155):
report, then hard-skip / ghost-create / soft-skip per policy; the
`graph_segment_opt.unwrap()` panics when the segment is still unresolved
(`Ignore` policy, or a ghost registered under a renamed reference). -/
def pathResolveSegment (options : ParseOptions) (n : Nat) (segment : String)
    (st : PathLoopState) : PathResolve :=
  match st.gfa.find_segment_with_name segment with
  | some graph_segment => .proceed graph_segment st
  | none =>
    let st := { st with errors := st.errors ++ [ParseMessage.new n .SegmentNotFound segment] }
    if options.handle_missing_segment = .HardSkip then
      .early (st.errors ++ [ParseMessage.new n .InvalidPath segment]) st.gfa
    else
      let st :=
        if options.handle_missing_segment = .CreateGhost then
          { st with gfa := (st.gfa.create_ghost_segment segment).2 }
        else st
      if options.handle_missing_segment = .SoftSkip then .cont st
      else
        match st.gfa.find_segment_with_name segment with
        | none => .panicked
        | some graph_segment => .proceed graph_segment st

def pathStepLoop (options : ParseOptions) (n : Nat) (use_overlaps : Bool) :
    List String → Nat → PathLoopState →
    Option (Except (List ParseMessage × GfaParser) PathLoopState)
  | [], _, st => some (.ok st)
  | path_step :: rest, step_idx, st =>
    if utf8Len path_step < 2 then
      pathStepLoop options n use_overlaps rest (step_idx + 1)
        { st with errors := st.errors ++ [ParseMessage.new n .InvalidPathStep path_step] }
    else
      let parsedStep : String × Bool × List ParseMessage :=
        match stripSuffixChar path_step '+' with
        | some s => (s, true, [])
        | none =>
          match stripSuffixChar path_step '-' with
          | some s => (s, false, [])
          | none =>
            (path_step, true,
             [ParseMessage.new n .InvalidPathStepOrientation path_step])
      let segment := parsedStep.1
      let orientation := parsedStep.2.1
      let st := { st with errors := st.errors ++ parsedStep.2.2 }
      let real_overlap :=
        if use_overlaps then (st.overlaps_str.get? step_idx).getD "@" else "@"
      let st :=
        if use_overlaps ∧ step_idx < st.overlaps_str.length then
          { st with overlaps_str := st.overlaps_str.set step_idx "@" }
        else st
      if segment.isEmpty then
        pathStepLoop options n use_overlaps rest (step_idx + 1) st
      else
        match pathResolveSegment options n segment st with
        | .panicked => none
        | .early errors gfa => some (.error (errors, gfa))
        | .cont st => pathStepLoop options n use_overlaps rest (step_idx + 1) st
        | .proceed graph_segment st =>
          let segment_line_no := u32ofNat graph_segment.line_no
          let curr_step_incoming_links := graph_segment.incoming_links
          let curr_step : Step :=
            { segment_id := segment_line_no, orientation := orientation }
          match st.prev_step with
          | none =>
            let st := { st with prev_step := some curr_step }
            let st :=
              if use_overlaps ∧ step_idx < st.overlaps_str.length then
                { st with overlaps_str := st.overlaps_str.set step_idx real_overlap }
              else st
            let st := { st with steps := st.steps ++
              [{ segment_id := segment_line_no, orientation := orientation }] }
            pathStepLoop options n use_overlaps rest (step_idx + 1) st
          | some prev =>
            let prev_step_orientation := prev.orientation
            let curr_step_segment_name := graph_segment.name
            match (st.gfa.find_segment prev.segment_id).map Segment.name with
            | none =>
              -- already reported in a previous iteration: skip this step
              -- without restoring the overlap or pushing the step
              pathStepLoop options n use_overlaps rest (step_idx + 1) st
            | some prev_step_segment_name =>
              match pathLinkFlagsAux st.gfa prev_step_segment_name
                  curr_step_segment_name prev_step_orientation
                  curr_step.orientation curr_step_incoming_links false false with
              | none => none
              | some (found_link, found_implicit) =>
                let st :=
                  if ¬ found_link ∧ (found_implicit ∧ ¬ options.allow_implicit_links) then
                    { st with errors := st.errors ++
                      [ParseMessage.new n .LinkNotFound
                        ("path step: " ++ prev_step_segment_name ++
                         orientationMark prev_step_orientation ++ " -> " ++
                         curr_step_segment_name ++
                         orientationMark curr_step.orientation)] }
                  else st
                let st := { st with prev_step := some curr_step }
                let st :=
                  if use_overlaps ∧ step_idx < st.overlaps_str.length then
                    { st with overlaps_str := st.overlaps_str.set step_idx real_overlap }
                  else st
                let st := { st with steps := st.steps ++
                  [{ segment_id := segment_line_no, orientation := orientation }] }
                pathStepLoop options n use_overlaps rest (step_idx + 1) st

/-- The `outgoing_links.iter().copied().find(..)` search of `path.rs`
(lines 283-291); outer `none` models the `find_link_mut(..).expect` panic
inside the closure. -/
def findCandidateLink (gfa : GfaParser) (toName : String) (fromOr toOr : Bool) :
    List Nat → Option (Option Nat)
  | [] => some none
  | link_no :: rest =>
    match gfa.find_link link_no with
    | none => none
    | some link =>
      if link.to_segment == toName && (link.from_orientation == fromOr) &&
          (link.to_orientation == toOr) then
        some (some link_no)
      else findCandidateLink gfa toName fromOr toOr rest

/-- The overlap-processing loop of `path.rs` (lines 237-310), including the
`break`-on-`@`-successor and substitute-from-link logic. -/
def pathOverlapsLoop (gfa : GfaParser) (options : ParseOptions) (n : Nat)
    (steps_str overlaps_str_full : List String) :
    List String → Nat → List ParseMessage → List String →
    Option (List ParseMessage × List String)
  | [], _, errors, overlaps => some (errors, overlaps)
  | overlap :: rest, step_index, errors, overlaps =>
    if overlap = "@" then
      pathOverlapsLoop gfa options n steps_str overlaps_str_full rest
        (step_index + 1) errors (overlaps.dropLast ++ ["*"])
    else if ¬ is_valid_cigar overlap ∧ overlap ≠ "*" then
      pathOverlapsLoop gfa options n steps_str overlaps_str_full rest
        (step_index + 1) (errors ++ [ParseMessage.new n .InvalidCIGAR overlap])
        (overlaps ++ ["*"])
    else if overlap = "*" ∧ options.substitute_path_overlaps then
      if overlaps_str_full.get? (step_index + 1) = some "@" then
        some (errors, overlaps)
      else
        match steps_str.get? step_index with
        | none => none
        | some cur_raw =>
          let step_segment_current_str := trimEndPM cur_raw
          match gfa.find_segment_with_name step_segment_current_str with
          | none => none
          | some step_segment_current =>
            match steps_str.get? (step_index + 1) with
            | none => none
            | some next_raw =>
              let step_segment_next_str := trimEndPM next_raw
              match findCandidateLink gfa step_segment_next_str
                  (endsWithPlus cur_raw) (endsWithPlus next_raw)
                  step_segment_current.outgoing_links with
              | none => none
              | some none => some (errors, overlaps)
              | some (some link_no) =>
                match gfa.find_link link_no with
                | none => some (errors, overlaps)
                | some link_to_next =>
                  pathOverlapsLoop gfa options n steps_str overlaps_str_full rest
                    (step_index + 1) errors (overlaps ++ [link_to_next.overlap])
    else
      pathOverlapsLoop gfa options n steps_str overlaps_str_full rest
        (step_index + 1) errors (overlaps ++ [overlap])

def Path.parse_line (gfa : GfaParser) (parts : List String) (raw : String)
    (n : Nat) (map : TagMap) (options : ParseOptions) :
    Option (Option Path × List ParseMessage × GfaParser × TagMap) :=
  match parts.get? 1, parts.get? 2, parts.get? 3 with
  | some p1, some p2, some p3 =>
    if ¬ is_valid_name p1 then
      some (none, [ParseMessage.new n .InvalidID p1], gfa, map)
    else
      let en := gfa.ensure_name_unique n p1
      let name := en.1
      let gfa := en.2
      let steps_str := splitBy (fun c => c = ',' ∨ c = ';') p2
      let overlaps_str := splitBy (fun c => c = ',') p3
      let uo : Bool × List ParseMessage :=
        if p3 = "*" then (false, [])
        else if steps_str.length ≠ overlaps_str.length + 1 then
          (false, [ParseMessage.new n .PathOverlapLengthMismatch raw])
        else (true, [])
      let use_overlaps := uo.1
      let st0 : PathLoopState :=
        { errors := uo.2, overlaps_str := overlaps_str, steps := [],
          prev_step := none, gfa := gfa }
      match pathStepLoop options n use_overlaps steps_str 0 st0 with
      | none => none
      | some (.error (errors, gfa)) => some (none, errors, gfa, map)
      | some (.ok st) =>
        let finish : Option (List ParseMessage × List String) :=
          if use_overlaps then
            pathOverlapsLoop st.gfa options n steps_str st.overlaps_str
              st.overlaps_str 0 st.errors []
          else some (st.errors, [])
        match finish with
        | none => none
        | some (errors, overlaps) =>
          some (some
            { line_no := n, raw := raw, tags := map, name := name,
              steps := st.steps, overlaps := overlaps },
            errors, st.gfa, map)
  | _, _, _ => none

/-! ### Walk parsing (`src/line/walk.rs`) -/

/-- The range-collision sweep over all previously stored walks
(`walk.rs` lines 101-127). -/
def Walk.check_overlapping_ranges (walks : List Walk) (n : Nat)
    (sample_id : String) (hap_index : Nat) (seq_id : String)
    (seq_start seq_end : Nat) : List ParseMessage :=
  walks.foldl
    (fun errs walk =>
      if walk.sample_id = sample_id ∧ walk.hap_index = hap_index ∧
          walk.seq_id = seq_id then
        match walk.seq_start, walk.seq_end with
        | some existing_start, some existing_end =>
          if (seq_start ≤ existing_end ∧ seq_end ≥ existing_start) ∨
              (existing_start ≤ seq_end ∧ existing_end ≥ seq_start) then
            errs ++ [ParseMessage.new n .OverlappingWalkRange
              (sample_id ++ "/" ++ toString hap_index ++ "/" ++ seq_id ++
               " with range " ++ toString seq_start ++ ".." ++ toString seq_end ++
               " overlaps with " ++ toString existing_start ++ ".." ++
               toString existing_end ++ " on line " ++ toString walk.line_no)]
          else errs
        | _, _ => errs
      else errs)
    []

structure WalkLoopState where
  errors : List ParseMessage
  walk_steps : List Step
  current_segment_name : List Char
  curr_step_direction : Bool
  gfa : GfaParser
deriving DecidableEq

inductive WalkBoundary where
  | panicked
  | early (errors : List ParseMessage) (gfa : GfaParser)
  | next (st : WalkLoopState)

/-- Processing of one completed walk step at a direction marker or at the
final character (`walk.rs` lines 155-267): segment resolution with the
missing-segment policy, step push, and the step-pair check through the
Step Validator with links and gaps allowed, jumps and edges disallowed,
and overlap reporting enabled; failures act per the missing-bridge
policy. -/
def walkProcessBoundary (options : ParseOptions) (n : Nat) (first100 : String)
    (c : Char) (st : WalkLoopState) : WalkBoundary :=
  if st.current_segment_name.isEmpty then
    .early (st.errors ++ [ParseMessage.new n .InvalidWalk first100]) st.gfa
  else
    let segment_name := String.mk st.current_segment_name
    let resolved : Option (Nat × List ParseMessage × GfaParser) :=
      match st.gfa.find_segment_with_name segment_name with
      | some segment => some (u32ofNat segment.line_no, st.errors, st.gfa)
      | none =>
        let errors := st.errors ++ [ParseMessage.new n .SegmentNotFound segment_name]
        if options.handle_missing_segment = .HardSkip then none
        else if options.handle_missing_segment = .CreateGhost then
          let g := st.gfa.create_ghost_segment segment_name
          some (u32ofNat g.1.line_no, errors, g.2)
        else some (0, errors, st.gfa)
    match resolved with
    | none =>
      .early (st.errors ++ [ParseMessage.new n .SegmentNotFound segment_name,
                            ParseMessage.new n .InvalidWalk first100]) st.gfa
    | some (segment_id, errors, gfa) =>
      let walk_steps :=
        if segment_id ≠ 0 ∨
            (segment_id = 0 ∧ options.handle_missing_segment = .Ignore) then
          st.walk_steps ++ [{ segment_id := segment_id,
                              orientation := st.curr_step_direction }]
        else st.walk_steps
      let pairCheck : Option (List ParseMessage × GfaParser) ×
          Option (List ParseMessage × GfaParser) :=
        if walk_steps.length ≥ 2 then
          match walk_steps.getLast?, walk_steps.get? (walk_steps.length - 2) with
          | some this_step, some last_step =>
            let last_step_name :=
              ((gfa.find_segment last_step.segment_id).map Segment.name).getD ""
            let sv := gfa.is_step_valid n last_step_name segment_name
              last_step.orientation this_step.orientation
              true false false true true
            let gfa := sv.2
            if ¬ sv.1 then
              let errors := errors ++ [ParseMessage.new n .LinkNotFound
                (last_step_name ++ orientationMark last_step.orientation ++
                 " -> " ++ segment_name ++ orientationMark this_step.orientation)]
              if options.handle_missing_bridge = .HardSkip then
                (none, some (errors ++ [ParseMessage.new n .InvalidWalk first100], gfa))
              else if options.handle_missing_bridge = .CreateGhostLink then
                (some (errors,
                  (gfa.create_ghost_link last_step_name last_step.orientation
                    segment_name this_step.orientation "*").2), none)
              else (some (errors, gfa), none)
            else (some (errors, gfa), none)
          | _, _ => (some (errors, gfa), none)
        else (some (errors, gfa), none)
      match pairCheck with
      | (_, some (errors, gfa)) => .early errors gfa
      | (some (errors, gfa), none) =>
        .next { errors := errors, walk_steps := walk_steps,
                current_segment_name := [], curr_step_direction := (c = '>'),
                gfa := gfa }
      | (none, none) => .panicked

def walkCharLoop (options : ParseOptions) (n : Nat) (first100 : String)
    (walk_str_len : Int) :
    List Char → Int → WalkLoopState →
    Option (Except (List ParseMessage × GfaParser) WalkLoopState)
  | [], _, st => some (.ok st)
  | c :: rest, char_idx, st =>
    if char_idx = 0 then
      if ¬ (c = '>' ∨ c = '<') then
        some (.error (st.errors ++ [ParseMessage.new n .InvalidWalk first100], st.gfa))
      else
        walkCharLoop options n first100 walk_str_len rest (char_idx + 1)
          { st with curr_step_direction := (c = '>') }
    else if c = '>' ∨ c = '<' ∨ char_idx = walk_str_len - 1 then
      let st :=
        if char_idx = walk_str_len - 1 then
          { st with current_segment_name := st.current_segment_name ++ [c] }
        else st
      match walkProcessBoundary options n first100 c st with
      | .panicked => none
      | .early errors gfa => some (.error (errors, gfa))
      | .next st =>
        walkCharLoop options n first100 walk_str_len rest (char_idx + 1) st
    else
      walkCharLoop options n first100 walk_str_len rest (char_idx + 1)
        { st with current_segment_name := st.current_segment_name ++ [c] }

def Walk.parse_line (gfa : GfaParser) (parts : List String) (raw : String)
    (n : Nat) (map : TagMap) (options : ParseOptions) :
    Option (Option Walk × List ParseMessage × GfaParser × TagMap) :=
  let errors : List ParseMessage := []
  let sample_id := (parts.get? 1).getD ""
  let hapRes : Nat × List ParseMessage :=
    match parts.get? 2 with
    | some s =>
      match parseU32 s with
      | some v => (v, errors)
      | none => (0, errors ++ [ParseMessage.new n .InvalidHaplotypeIndex s])
    | none => (0, errors ++ [ParseMessage.new n .InvalidHaplotypeIndex ""])
  let hap_index := hapRes.1
  let errors := hapRes.2
  let seq_id := (parts.get? 3).getD ""
  let startRes : Option (Nat × Bool × List ParseMessage) :=
    match parts.get? 4 with
    | some s =>
      match parseU32 s with
      | some v => some (v, false, errors)
      | none =>
        some (0, true,
          if s ≠ "*" then errors ++ [ParseMessage.new n .InvalidSequenceStart s]
          else errors)
    | none => none
  match startRes with
  | none => none
  | some (seq_start, seq_start_is_asterisk, errors) =>
    let endRes : Option (Nat × Bool × List ParseMessage) :=
      match parts.get? 5 with
      | some s =>
        match parseU32 s with
        | some v => some (v, false, errors)
        | none =>
          some (0, true,
            if s ≠ "*" then errors ++ [ParseMessage.new n .InvalidSequenceEnd s]
            else errors)
      | none => none
    match endRes with
    | none => none
    | some (seq_end, seq_end_is_asterisk, errors) =>
      let errors :=
        if seq_start > seq_end then
          errors ++ [ParseMessage.new n .InvalidSequenceRange
            ("start (" ++ toString seq_start ++ ") > end (" ++
             toString seq_end ++ ")")]
        else errors
      let errors := errors ++
        Walk.check_overlapping_ranges gfa.walks n sample_id hap_index seq_id
          seq_start seq_end
      let walk_str := (parts.get? 6).getD ""
      let first100 : String := String.mk (walk_str.data.take 100)
      let walk_str_len : Int := (utf8Len walk_str : Int)
      let st0 : WalkLoopState :=
        { errors := errors, walk_steps := [], current_segment_name := [],
          curr_step_direction := false, gfa := gfa }
      match walkCharLoop options n first100 walk_str_len walk_str.data 0 st0 with
      | none => none
      | some (.error (errors, gfa)) => some (none, errors, gfa, map)
      | some (.ok st) =>
        some (some
          { line_no := n, raw := raw, tags := map, sample_id := sample_id,
            hap_index := hap_index, seq_id := seq_id,
            seq_start := if seq_start_is_asterisk then none else some seq_start,
            seq_end := if seq_end_is_asterisk then none else some seq_end,
            walk := st.walk_steps },
          st.errors, st.gfa, map)

def UnorderedGroup.parse_line (gfa : GfaParser) (parts : List String) (raw : String)
    (n : Nat) (map : TagMap) (options : ParseOptions) :
    Option (Option UnorderedGroup × List ParseMessage × GfaParser × TagMap) :=
  match parts.get? 1, parts.get? 2 with
  | some p1, some p2 =>
    let r := parse_generic_group gfa .UnorderedGroup p1 p2 n options
    match r.1 with
    | none => some (none, r.2.1, r.2.2, map)
    | some g =>
      some (some { line_no := n, raw := raw, tags := map, name := g.name,
                   members := g.members },
            r.2.1, r.2.2, map)
  | _, _ => none

/-! ### Dispatch (`src/line/record.rs`) -/

/-- The `required_columns` table; `none` models the
`panic!("unreachable")` arm hit for any first column that is not one of the
twelve single-letter tags. -/
def requiredColumns (gfa : GfaParser) (record_type : String) : Option Nat :=
  match record_type with
  | "H" => some REQ_COLUMNS_HEADER
  | "S" => some (if gfa.version = GFAVersion.V2 then 4 else 3)
  | "L" => some REQ_COLUMNS_LINK
  | "C" => some REQ_COLUMNS_CONTAIN
  | "P" => some REQ_COLUMNS_PATH
  | "W" => some REQ_COLUMNS_WALK
  | "J" => some REQ_COLUMNS_JUMP
  | "F" => some REQ_COLUMNS_FRAGMENT
  | "E" => some REQ_COLUMNS_EDGE
  | "G" => some REQ_COLUMNS_GAP
  | "O" => some REQ_COLUMNS_ORDERED
  | "U" => some REQ_COLUMNS_UNORDERED
  | _ => none

/-- `GfaRecord::parse_line`: split the line, check the column count,
collect optional fields (only the first tag error is kept), record tag
names, and dispatch to the per-kind parser. -/
def GfaRecord.parse_line (gfa : GfaParser) (line : String) (n : Nat)
    (options : ParseOptions) :
    Option (Option GfaRecord × List ParseMessage × GfaParser) :=
  let parts := splitBy (fun c => c = '\t') line
  match parts.head? with
  | none => none
  | some record_type =>
    let raw := if options.store_raw_lines then line else ""
    match requiredColumns gfa record_type with
    | none => none
    | some required_columns =>
      if parts.length < required_columns then
        some (none, [ParseMessage.new n .InvalidLine raw], gfa)
      else
        let collected :=
          collect_optional_fields n record_type (parts.drop required_columns)
        let tags := collected.1
        let errors : List ParseMessage :=
          match collected.2.head? with
          | some e => [e]
          | none => []
        let gfa := tags.foldl
          (fun g t => { g with tag_names := insertSet g.tag_names t.tag }) gfa
        let tag_map := TagMap.from_vec tags
        let dispatched :
            Option (Option GfaRecord × List ParseMessage × GfaParser × TagMap) :=
          match record_type with
          | "H" =>
            (Header.parse_line gfa parts raw n tag_map options).map
              (fun r => (r.1.map GfaRecord.Header, r.2))
          | "S" =>
            (Segment.parse_line gfa parts raw n tag_map options).map
              (fun r => (r.1.map GfaRecord.Segment, r.2))
          | "L" =>
            (Link.parse_line gfa parts raw n tag_map options).map
              (fun r => (r.1.map GfaRecord.Link, r.2))
          | "C" =>
            (Containment.parse_line gfa parts raw n tag_map options).map
              (fun r => (r.1.map GfaRecord.Containment, r.2))
          | "P" =>
            (Path.parse_line gfa parts raw n tag_map options).map
              (fun r => (r.1.map GfaRecord.Path, r.2))
          | "W" =>
            (Walk.parse_line gfa parts raw n tag_map options).map
              (fun r => (r.1.map GfaRecord.Walk, r.2))
          | "J" =>
            (Jump.parse_line gfa parts raw n tag_map options).map
              (fun r => (r.1.map GfaRecord.Jump, r.2))
          | "F" =>
            (Fragment.parse_line gfa parts raw n tag_map options).map
              (fun r => (r.1.map GfaRecord.Fragment, r.2))
          | "E" =>
            (Edge.parse_line gfa parts raw n tag_map options).map
              (fun r => (r.1.map GfaRecord.Edge, r.2))
          | "G" =>
            (Gap.parse_line gfa parts raw n tag_map options).map
              (fun r => (r.1.map GfaRecord.Gap, r.2))
          | "O" =>
            (OrderedGroup.parse_line gfa parts raw n tag_map options).map
              (fun r => (r.1.map GfaRecord.OrderedGroup, r.2))
          | "U" =>
            (UnorderedGroup.parse_line gfa parts raw n tag_map options).map
              (fun r => (r.1.map GfaRecord.UnorderedGroup, r.2))
          | _ => none
        match dispatched with
        | none => none
        | some (record, record_errors, gfa, _) =>
          some (record, record_errors ++ errors, gfa)

/-! ### The staged loader and programmatic insertion (`src/gfa.rs`) -/

/-- The input of a load: a directory path, an unopenable file, or the
file's lines in order (`none` marks a line the reader failed to decode). -/
inductive FileInput where
  | directory (path : String)
  | openFailure (path : String)
  | lines (path : String) (content : List (Option String))

/-- The line-reading loop of `GfaParser::parse`: successful lines are
collected with their 1-based numbers; failed reads push a Fatal `IOError`
diagnostic and are skipped. -/
def readLines (st : GfaParser) (content : List (Option String)) :
    List (Nat × String) × GfaParser :=
  let r := content.foldl
    (fun (acc : List (Nat × String) × GfaParser × Nat) l =>
      match l with
      | some t => (acc.1 ++ [(acc.2.2, t)], acc.2.1, acc.2.2 + 1)
      | none =>
        (acc.1,
         acc.2.1.push_message
           (ParseMessage.new acc.2.2 .IoError "(unable to read line)"),
         acc.2.2 + 1))
    ([], st, 1)
  (r.1, r.2.1)

/-- The `continue` conditions of the pass loop: a line is skipped when the
pass does not admit its first byte (`gfa.rs` lines 125-141). -/
def passSkips (pass : Nat) (tag : Nat) : Bool :=
  match pass with
  | 0 => decide (tag ≠ 72)
  | 1 => decide (tag ≠ 83)
  | 2 => decide (¬ (tag = 76 ∨ tag = 74 ∨ tag = 67 ∨ tag = 70 ∨ tag = 69 ∨ tag = 71))
  | 3 => decide (¬ (tag = 80 ∨ tag = 87 ∨ tag = 79 ∨ tag = 85))
  | _ => false

/-- One line of one pass: skip empty and `#` lines and lines the pass does
not admit; otherwise parse, store the record and append the diagnostics.
`none` absorbs a panic from any earlier line. -/
def GfaParser.process_pass_line (options : ParseOptions) (pass : Nat)
    (ost : Option GfaParser) (entry : Nat × String) : Option GfaParser :=
  match ost with
  | none => none
  | some gfa =>
    if entry.2 = "" then some gfa
    else
      match firstByte entry.2 with
      | none => some gfa
      | some tag =>
        if tag = 35 then some gfa
        else if passSkips pass tag then some gfa
        else
          match GfaRecord.parse_line gfa entry.2 entry.1 options with
          | none => none
          | some (parsed_line, errs, gfa) =>
            let gfa := gfa.push_record_and_update_index parsed_line
            some (gfa.push_messages errs)

/-- The four passes over the full line list (`gfa.rs` lines 118-154). -/
def GfaParser.run_passes (st : GfaParser) (raw_lines : List (Nat × String))
    (options : ParseOptions) : Option GfaParser :=
  [0, 1, 2, 3].foldl
    (fun ost pass => raw_lines.foldl (GfaParser.process_pass_line options pass) ost)
    (some st)

/-- `GfaParser::parse`: reject directories and unopenable files with a
Fatal diagnostic; otherwise read the lines, run the four passes, check the
header, add the post-pass Info diagnostics, and fail exactly when a Fatal
message is present, returning the Fatal messages. -/
def GfaParser.parse (st : GfaParser) (input : FileInput) (options : ParseOptions) :
    Option (Except (List ParseMessage) Unit × GfaParser) :=
  match input with
  | .directory path =>
    let st := st.push_message (ParseMessage.new 0 .DirectoryError path)
    some (.error st.messages, st)
  | .openFailure path =>
    let st := st.push_message (ParseMessage.new 0 .IoError path)
    some (.error st.messages, st)
  | .lines path content =>
    let rl := readLines st content
    let raw_lines := rl.1
    let st := rl.2
    let st := { st with max_lines := raw_lines.length, namespace_index := [] }
    match st.run_passes raw_lines options with
    | none => none
    | some st =>
      let st :=
        match st.header with
        | some header =>
          if header.line_no ≠ 1 then
            st.push_message
              (ParseMessage.new header.line_no .HeaderNotOnFirstLine header.raw)
          else st
        | none => st.push_message (ParseMessage.new 0 .MissingHeader path)
      let st := st.add_info_errors
      if st.messages.any (fun e => e.severity = .Fatal) then
        some (.error (st.messages.filter (fun e => e.severity = .Fatal)), st)
      else some (.ok (), st)

/-- `GfaParser::add_line`: reserve the next synthetic line number (advanced
before parsing and never rolled back), parse, and either return the
diagnostics as `Err` (without retaining them in `messages`) or retain them
and store the record. -/
def GfaParser.add_line (st : GfaParser) (line : String) (options : ParseOptions) :
    Option (Except (List ParseMessage) Nat × GfaParser) :=
  let ln := st.get_available_line_no
  let line_no := ln.1
  let st := ln.2
  match GfaRecord.parse_line st line line_no options with
  | none => none
  | some (parsed_line, errs, st) =>
    match parsed_line with
    | none => some (.error errs, st)
    | some _ =>
      let st := st.push_messages errs
      let st := st.push_record_and_update_index parsed_line
      some (.ok line_no, st)

/-! ### Concrete scenario inputs used by the claim theorems -/

/-- Does any message in the list carry the given code? -/
def hasCode (ms : List ParseMessage) (c : ParseMessageCode) : Bool :=
  ms.any (fun m => m.code = c)

/-- Default options with the implicit-link tolerance switched. -/
def optionsImplicit (allow : Bool) : ParseOptions :=
  { ParseOptions.default with allow_implicit_links := allow }

/-- A file with segments `s1`, `s2`, no connecting Link at all, and the
path `P path1 s1+,s2+ *`. -/
def pathNoLinkFile : FileInput :=
  .lines "f" [some "H\tVN:Z:1.0", some "S\ts1\tA", some "S\ts2\tA",
              some "P\tpath1\ts1+,s2+\t*"]

/-- The same file with only the reversed/complemented link
`L s1 - s2 - 0M` (both orientations negated relative to the path step pair
`s1+ -> s2+`). -/
def pathReverseLinkFile : FileInput :=
  .lines "f" [some "H\tVN:Z:1.0", some "S\ts1\tA", some "S\ts2\tA",
              some "L\ts1\t-\ts2\t-\t0M", some "P\tpath1\ts1+,s2+\t*"]

/-- The `(LinkNotFound present, path step counts)` observation of a load. -/
def pathLinkObs (input : FileInput) (options : ParseOptions) :
    Option (Bool × List Nat) :=
  (GfaParser.parse GfaParser.new input options).map
    (fun r => (hasCode r.2.messages .LinkNotFound,
               (r.2.records.filterMap GfaRecord.as_path).map
                 (fun p => p.steps.length)))

/-- An incoming link matching a step pair exactly: same from/to segments
and the step orientations equal to the link's (`path.rs` lines 189-192). -/
def linkMatchesStep (gfa : GfaParser) (prevName currName : String)
    (prevOr currOr : Bool) (ln : Nat) : Bool :=
  match gfa.find_link ln with
  | none => false
  | some link =>
    link.from_segment == prevName && link.to_segment == currName &&
    (prevOr == link.from_orientation) && (currOr == link.to_orientation)

/-- An incoming link matching a step pair as a complemented (implicit)
traversal: same from/to segments, each step orientation the negation of
the link's opposite-endpoint orientation (`path.rs` lines 198-201). -/
def linkMatchesStepImplicit (gfa : GfaParser) (prevName currName : String)
    (prevOr currOr : Bool) (ln : Nat) : Bool :=
  match gfa.find_link ln with
  | none => false
  | some link =>
    link.from_segment == prevName && link.to_segment == currName &&
    (prevOr == !link.to_orientation) && (currOr == !link.from_orientation)

/-- The no-link file with the exactly matching link `L s1 + s2 + 0M`. -/
def pathMatchLinkFile : FileInput :=
  .lines "f" [some "H\tVN:Z:1.0", some "S\ts1\tA", some "S\ts2\tA",
              some "L\ts1\t+\ts2\t+\t0M", some "P\tpath1\ts1+,s2+\t*"]

/-- The no-link file with both the exact link `L s1 + s2 + 0M` and the
complemented link `L s1 - s2 - 0M`. -/
def pathBothLinksFile : FileInput :=
  .lines "f" [some "H\tVN:Z:1.0", some "S\ts1\tA", some "S\ts2\tA",
              some "L\ts1\t+\ts2\t+\t0M", some "L\ts1\t-\ts2\t-\t0M",
              some "P\tpath1\ts1+,s2+\t*"]

/-- A complemented link `s1- -> s2-` stored at line 4, used by the C2
witness. -/
def c2Link : Link :=
  { Link.default with
      line_no := 4, from_segment := "s1", from_orientation := false,
      to_segment := "s2", to_orientation := false, overlap := "0M" }

/-- A builder holding only `c2Link`, the state the C2 witness scans. -/
def c2Gfa : GfaParser :=
  { GfaParser.new with
      records := [GfaRecord.Link c2Link],
      records_index := [(4, 0)] }

/-- Two walks with the same `(sample, hap, seq)` triple and the
boundary-touching ranges `[0,50)` and `[50,100)`. -/
def walkBoundaryFile : FileInput :=
  .lines "f" [some "H\tVN:Z:1.0", some "S\ts1\tA",
              some "W\ta\t0\ts\t0\t50\t>s1", some "W\ta\t0\ts\t50\t100\t>s1"]

/-- Two walks with the same triple and the overlapping ranges `[0,100)` and
`[50,150)`. -/
def walkOverlapFile : FileInput :=
  .lines "f" [some "H\tVN:Z:1.0", some "S\ts1\tA",
              some "W\ta\t0\ts\t0\t100\t>s1", some "W\ta\t0\ts\t50\t150\t>s1"]

/-- A prior walk carrying a triple and a defined range, as stored by the
builder. -/
def storedWalk (sample_id : String) (hap_index : Nat) (seq_id : String)
    (a b : Nat) (line_no : Nat) : Walk :=
  { line_no := line_no, raw := "", tags := TagMap.new, sample_id := sample_id,
    hap_index := hap_index, seq_id := seq_id, seq_start := some a,
    seq_end := some b, walk := [] }

/-- The bridge line of each kind connecting `s1+` to `s2+`. -/
def bridgeLineOf : BridgeType → String
  | .Link => "L\ts1\t+\ts2\t+\t0M"
  | .Jump => "J\ts1\t+\ts2\t+\t*"
  | .Containment => "C\ts1\t+\ts2\t+\t0\t*"
  | .Edge => "E\t*\ts1+\ts2+\t0\t1$\t0\t1$\t*"
  | .Gap => "G\t*\ts1+\ts2+\t0\t*"

/-- Segments `s1`, `s2`, one bridge of the given kind from `s1+` to `s2+`,
and the walk `>s1>s2`. -/
def walkBridgeFile (k : BridgeType) : FileInput :=
  .lines "f" [some "H\tVN:Z:1.0", some "S\ts1\tA", some "S\ts2\tA",
              some (bridgeLineOf k), some "W\ta\t0\ts\t*\t*\t>s1>s2"]

/-- Default options with missing-bridge recovery disabled, so a failed
step-pair check only reports. -/
def walkIgnoreBridgeOptions : ParseOptions :=
  { ParseOptions.default with handle_missing_bridge := .Ignore }

/-- A file in which the registry name `x` is taken by a Link `ID` tag and
the segment name `x_1` is already declared, so the ghost synthesized for
the missing segment `x` is renamed to the colliding `x_1`. -/
def ghostCollisionFile : FileInput :=
  .lines "f" [some "H\tVN:Z:1.0", some "S\ts1\tA", some "S\tx_1\tA",
              some "L\ts1\t+\ts1\t+\t*\tID:Z:x", some "L\ts1\t+\tx\t+\t*"]

/-- A walk line whose step scan creates a ghost segment for `s1` and then
aborts on the empty step between the two `>` markers. -/
def ghostThenFailLine : String := "W\ta\t0\ts\t*\t*\t>s1>>s2"

/-- A builder state holding segments `s1`, `s2` and one bridge record of
line number 10 from `s1+` to `s2+`, registered in `s1`'s outgoing list for
its kind — the state `is_step_valid` scans. -/
def singleBridgeState (rec : GfaRecord) : GfaParser :=
  let s1 : Segment := { Segment.default with line_no := 2, name := "s1" }
  let s1 :=
    match rec with
    | .Link _ => { s1 with outgoing_links := [10] }
    | .Jump _ => { s1 with outgoing_jumps := [10] }
    | .Edge _ => { s1 with outgoing_edges := [10] }
    | .Gap _ => { s1 with outgoing_gaps := [10] }
    | _ => s1
  let s2 : Segment := { Segment.default with line_no := 3, name := "s2" }
  { GfaParser.new with
      records := [GfaRecord.Segment s1, GfaRecord.Segment s2, rec],
      records_index := [(2, 0), (3, 1), (10, 2)],
      namespace_index := [("s1", 0), ("s2", 1)] }

/-- A Link record from `s1+` to `s2+` with the given overlap. -/
def plainLink (ov : String) : GfaRecord :=
  .Link { Link.default with
            line_no := 10, from_segment := "s1",
            to_segment := "s2", overlap := ov }

/-- An Edge record from `s1+` to `s2+`. -/
def plainEdge : GfaRecord :=
  .Edge { line_no := 10, raw := "", tags := TagMap.new, id := none,
          from_ := { reference := "s1", direction := true },
          to_ := { reference := "s2", direction := true },
          from_interval := Interval.default, to_interval := Interval.default,
          alignment := none }

/-- A Jump record from `s1+` to `s2+`. -/
def plainJump : GfaRecord :=
  .Jump { line_no := 10, raw := "", tags := TagMap.new, from_segment := "s1",
          from_orientation := true, to_segment := "s2", to_orientation := true,
          distance := none }

/-- A Gap record from `s1+` to `s2+`. -/
def plainGap : GfaRecord :=
  .Gap { line_no := 10, raw := "", tags := TagMap.new, id := none,
         from_ := { reference := "s1", direction := true },
         to_ := { reference := "s2", direction := true },
         distance := 0, variance := none }

/-- The outgoing adjacency list a bridge kind registers into
(`bridge.rs` lines 102-110, read side). -/
def outgoingList : BridgeType → Segment → List Nat
  | .Link, s => s.outgoing_links
  | .Jump, s => s.outgoing_jumps
  | .Containment, s => s.containments
  | .Edge, s => s.outgoing_edges
  | .Gap, s => s.outgoing_gaps

/-- The incoming adjacency list a bridge kind registers into
(`bridge.rs` lines 112-120, read side). -/
def incomingList : BridgeType → Segment → List Nat
  | .Link, s => s.incoming_links
  | .Jump, s => s.incoming_jumps
  | .Containment, s => s.contained_by
  | .Edge, s => s.incoming_edges
  | .Gap, s => s.incoming_gaps

/-- A builder state holding only segments `s1` and `s2`, the input state of
the C6 witness. -/
def c6State : GfaParser :=
  { GfaParser.new with
      records := [GfaRecord.Segment { Segment.default with line_no := 2, name := "s1" },
                  GfaRecord.Segment { Segment.default with line_no := 3, name := "s2" }],
      records_index := [(2, 0), (3, 1)],
      namespace_index := [("s1", 0), ("s2", 1)] }

/-- Bridge parts for a Link `s1+ -> s2+` with overlap `*`. -/
def c6Parts : BridgeParts :=
  { bridge_type := .Link, from_segment := "s1", from_orientation := "+",
    to_segment := "s2", to_orientation := "+", overlap := some "*" }

/-- The generic bridge produced from `c6Parts`. -/
def c6Bridge : GenericBridge :=
  { from_segment := "s1", from_orientation := true,
    to_segment := "s2", to_orientation := true }

/-- Builder state after reconciling `c6Parts` against `c6State`. -/
def c6ParsedSt : GfaParser :=
  (parse_generic_bridge c6State c6Parts "L" 10 TagMap.new ParseOptions.default).2.2.1

/-- Tag map after reconciling `c6Parts` against `c6State`. -/
def c6ParsedMap : TagMap :=
  (parse_generic_bridge c6State c6Parts "L" 10 TagMap.new ParseOptions.default).2.2.2

/-- The C6 witness state with `x` already taken in the name occurrence map,
the input state of the C7 witness. -/
def c7State : GfaParser := { c6State with name_space := [("x", 0)] }

/-- `c6Parts` with the missing from-segment `x`. -/
def c7Parts : BridgeParts := { c6Parts with from_segment := "x" }

/-- The ghost segment created for `x` over `c7State`. -/
def c7Ghost : Segment := (c7State.create_ghost_segment "x").1

/-- The builder state after creating the ghost for `x` over `c7State`. -/
def c7GhostSt : GfaParser := (c7State.create_ghost_segment "x").2

/-- Result component of `GfaParser.parse` on the directory input used as the
C1 witness. -/
def c1Res : Except (List ParseMessage) Unit :=
  Except.error [ParseMessage.new 0 .DirectoryError "p"]

/-- Parser state produced by `GfaParser.parse` on the directory input used as
the C1 witness. -/
def c1St : GfaParser :=
  GfaParser.new.push_message (ParseMessage.new 0 .DirectoryError "p")

/-- Spec-side admission table of the four passes, written from the spec's
words: pass 0 admits only `H` lines, pass 1 only `S`, pass 2 only the
bridge tags `L J C F E G`, pass 3 only the trail tags `P W O U`. -/
def specPassAdmits (pass : Nat) (tag : Nat) : Bool :=
  match pass with
  | 0 => decide (tag = 72)
  | 1 => decide (tag = 83)
  | 2 => decide (tag = 76 ∨ tag = 74 ∨ tag = 67 ∨ tag = 70 ∨ tag = 69 ∨ tag = 71)
  | 3 => decide (tag = 80 ∨ tag = 87 ∨ tag = 79 ∨ tag = 85)
  | _ => true

/-- Spec-side skip condition: empty lines, `#` comment lines and lines whose
kind tag the pass does not admit. -/
def specLineSkipped (pass : Nat) (line : String) : Bool :=
  match firstByte line with
  | none => true
  | some tag => decide (tag = 35) || !specPassAdmits pass tag

/-- Spec-side description of one line of one pass: skipped lines leave the
builder unchanged, admitted lines are parsed, stored and their diagnostics
appended; a line that fails to produce a record is dropped. -/
def specProcessLine (options : ParseOptions) (pass : Nat)
    (ost : Option GfaParser) (entry : Nat × String) : Option GfaParser :=
  match ost with
  | none => none
  | some gfa =>
    if specLineSkipped pass entry.2 then some gfa
    else
      match GfaRecord.parse_line gfa entry.2 entry.1 options with
      | none => none
      | some (parsed_line, errs, gfa) =>
        some ((gfa.push_record_and_update_index parsed_line).push_messages errs)

/-- Spec-side description of the loader's pass structure: exactly four
passes, each traversing the full line list in original file order. -/
def specRunPasses (st : GfaParser) (raw_lines : List (Nat × String))
    (options : ParseOptions) : Option GfaParser :=
  [0, 1, 2, 3].foldl
    (fun ost pass => raw_lines.foldl (specProcessLine options pass) ost)
    (some st)

/-! ## Helper lemmas -/

theorem mapLookup_insert_self {α β : Type} [DecidableEq α]
    (m : List (α × β)) (k : α) (v : β) :
    mapLookup (mapInsert m k v) k = some v := by
  simp [mapLookup, mapInsert, List.find?]

theorem find?_ext {α : Type} (p q : α → Bool) (h : ∀ a, p a = q a) :
    ∀ l : List α, l.find? p = l.find? q := by
  intro l
  induction l with
  | nil => rfl
  | cons x xs ih => simp [List.find?_cons, h x, ih]

theorem mapLookup_insert_ne {α β : Type} [DecidableEq α]
    (m : List (α × β)) (k k' : α) (v : β) (h : k' ≠ k) :
    mapLookup (mapInsert m k v) k' = mapLookup m k' := by
  have hk : ¬ (k = k') := fun he => h he.symm
  have hpred : ∀ a : α × β,
      (!decide (a.1 = k) && decide (a.1 = k')) = decide (a.1 = k') := by
    intro a
    by_cases ha : a.1 = k'
    · have hak : ¬ a.1 = k := by
        intro he
        exact h (by rw [← ha, he])
      simp [ha, hak, h]
    · simp [ha]
  simp only [mapLookup, mapInsert]
  simp [hk]
  exact congrArg (Option.map (fun e => e.2))
    (find?_ext _ _ hpred m)

theorem string_append_underscore_ne (s t : String) : s ++ "_" ++ t ≠ s := by
  intro h
  have hd : (s ++ "_" ++ t).data = s.data := congrArg String.data h
  have hlen : (s ++ "_" ++ t).data.length = s.data.length := congrArg List.length hd
  simp [String.data_append] at hlen

theorem find_segment_bind (st : GfaParser) (name : String) :
    st.find_segment_with_name name =
      (mapLookup st.namespace_index name).bind
        (fun idx => (st.records.get? idx).bind GfaRecord.as_segment) := by
  unfold GfaParser.find_segment_with_name
  cases mapLookup st.namespace_index name <;> rfl

theorem modify_find_same (st : GfaParser) (nm : String) (f : Segment → Segment)
    (s : Segment)
    (h : (st.modify_segment_with_name nm f).find_segment_with_name nm = some s) :
    ∃ s', st.find_segment_with_name nm = some s' ∧ s = f s' := by
  unfold GfaParser.modify_segment_with_name at h
  split at h
  · next hl =>
    rw [find_segment_bind, hl] at h
    exact absurd h (by simp)
  · next idx hl =>
    split at h
    · next s0 hg =>
      rw [find_segment_bind] at h
      simp only [hl, Option.some_bind] at h
      obtain ⟨hlt, -⟩ := List.get?_eq_some.mp hg
      rw [List.get?_set_eq_of_lt _ hlt] at h
      simp only [Option.some_bind, GfaRecord.as_segment, Option.some.injEq] at h
      refine ⟨s0, ?_, h.symm⟩
      rw [find_segment_bind, hl, Option.some_bind, hg]
      rfl
    · next hne =>
      rw [find_segment_bind] at h
      simp only [hl, Option.some_bind] at h
      cases hgg : st.records.get? idx with
      | none =>
        rw [hgg] at h
        simp at h
      | some r =>
        rw [hgg] at h
        cases r
        case Segment s1 => exact (hne s1 hgg).elim
        all_goals simp [GfaRecord.as_segment] at h

theorem modify_find_other (st : GfaParser) (nm name : String)
    (f : Segment → Segment) (s : Segment)
    (h : (st.modify_segment_with_name nm f).find_segment_with_name name = some s) :
    st.find_segment_with_name name = some s ∨
    ∃ s', st.find_segment_with_name name = some s' ∧ s = f s' := by
  unfold GfaParser.modify_segment_with_name at h
  split at h
  · exact Or.inl h
  · next idx hl =>
    split at h
    · next s0 hg =>
      rw [find_segment_bind] at h
      cases hl2 : mapLookup st.namespace_index name with
      | none =>
        rw [hl2] at h
        simp at h
      | some idx2 =>
        simp only [hl2, Option.some_bind] at h
        by_cases hij : idx = idx2
        · subst hij
          obtain ⟨hlt, -⟩ := List.get?_eq_some.mp hg
          rw [List.get?_set_eq_of_lt _ hlt] at h
          simp only [Option.some_bind, GfaRecord.as_segment,
            Option.some.injEq] at h
          refine Or.inr ⟨s0, ?_, h.symm⟩
          rw [find_segment_bind, hl2, Option.some_bind, hg]
          rfl
        · rw [List.get?_set_ne _ _ hij] at h
          refine Or.inl ?_
          rw [find_segment_bind, hl2, Option.some_bind]
          exact h
    · exact Or.inl h

theorem find_after_ensure (st : GfaParser) (ln : Nat) (nm name : String) :
    ((st.ensure_name_unique ln nm).2).find_segment_with_name name =
      st.find_segment_with_name name := by
  unfold GfaParser.ensure_name_unique
  cases mapLookup st.name_space nm <;> rfl

theorem mem_outgoing_register (bt : BridgeType) (n : Nat) (s : Segment) :
    n ∈ outgoingList bt (registerOutgoing bt n s) := by
  cases bt <;> simp [outgoingList, registerOutgoing]

theorem mem_incoming_register (bt : BridgeType) (n : Nat) (s : Segment) :
    n ∈ incomingList bt (registerIncoming bt n s) := by
  cases bt <;> simp [incomingList, registerIncoming]

theorem outgoing_register_incoming (bt bt' : BridgeType) (n : Nat) (s : Segment) :
    outgoingList bt (registerIncoming bt' n s) = outgoingList bt s := by
  cases bt <;> cases bt' <;> rfl

theorem find_after_push_message (st : GfaParser) (m : ParseMessage)
    (name : String) :
    (st.push_message m).find_segment_with_name name =
      st.find_segment_with_name name := rfl

theorem passSkips_spec (pass tag : Nat) :
    passSkips pass tag = !specPassAdmits pass tag := by
  match pass with
  | 0 => simp [passSkips, specPassAdmits, decide_not]
  | 1 => simp [passSkips, specPassAdmits, decide_not]
  | 2 => simp [passSkips, specPassAdmits, decide_not]
  | 3 => simp [passSkips, specPassAdmits, decide_not]
  | (n + 4) => rfl

theorem process_pass_line_spec (options : ParseOptions) (pass : Nat)
    (ost : Option GfaParser) (entry : Nat × String) :
    GfaParser.process_pass_line options pass ost entry =
      specProcessLine options pass ost entry := by
  cases ost with
  | none => rfl
  | some gfa =>
    by_cases he : entry.2 = ""
    · have h0 : firstByte (String.mk []) = none := rfl
      simp [GfaParser.process_pass_line, specProcessLine, specLineSkipped, he, h0]
    · cases hfb : firstByte entry.2 with
      | none =>
        simp [GfaParser.process_pass_line, specProcessLine, specLineSkipped,
          hfb, if_neg he]
      | some tag =>
        simp only [GfaParser.process_pass_line, specProcessLine,
          specLineSkipped, hfb, if_neg he]
        by_cases ht : tag = 35
        · simp [ht]
        · simp only [ht, decide_False, Bool.false_or, passSkips_spec, if_neg ht]
          by_cases ha : specPassAdmits pass tag
          · simp [ha]
          · simp [ha]

theorem pathLinkFlagsAux_spec (gfa : GfaParser) (p c : String) (po co : Bool) :
    ∀ (links : List Nat) (fl0 fi0 fl fi : Bool),
      pathLinkFlagsAux gfa p c po co links fl0 fi0 = some (fl, fi) →
      fl = (fl0 || links.any (linkMatchesStep gfa p c po co)) ∧
      fi = (fi0 || links.any (linkMatchesStepImplicit gfa p c po co)) := by
  intro links
  induction links with
  | nil =>
    intro fl0 fi0 fl fi h
    simp only [pathLinkFlagsAux, Option.some.injEq, Prod.mk.injEq] at h
    simp [← h.1, ← h.2]
  | cons ln rest ih =>
    intro fl0 fi0 fl fi h
    simp only [pathLinkFlagsAux] at h
    split at h
    · exact absurd h (by simp)
    · next link hf =>
      obtain ⟨h1, h2⟩ := ih _ _ _ _ h
      constructor
      · rw [h1, List.any_cons]
        simp [linkMatchesStep, hf, Bool.or_assoc]
      · rw [h2, List.any_cons]
        simp [linkMatchesStepImplicit, hf, Bool.or_assoc]

/-! ## Claim theorems -/

/-- C1. Whenever `GfaParser::load` (embedded as `GfaParser.parse`, with file
input abstracted as `FileInput`) completes without an internal panic on a
parser that starts with no pending diagnostics, the result is `Err` exactly
when the accumulated message list contains a Fatal-severity message, and in
that case the error payload is precisely the Fatal-severity subsequence of
the accumulated messages (for the directory and open-failure inputs the
single accumulated message is itself Fatal, so the payload again equals the
Fatal filter of the final message list). -/
theorem c1_load_err_iff_fatal :
    ∀ (st : GfaParser) (input : FileInput) (options : ParseOptions)
      (res : Except (List ParseMessage) Unit) (st' : GfaParser),
      st.messages = [] →
      GfaParser.parse st input options = some (res, st') →
      ((∃ m ∈ st'.messages, m.severity = .Fatal) ↔ (∃ errs, res = .error errs)) ∧
      (∀ errs, res = .error errs →
        errs = st'.messages.filter (fun m => m.severity = .Fatal)) := by
  intro st input options res st' hmsg hp
  cases input with
  | directory path =>
    simp only [GfaParser.parse, GfaParser.push_message, Option.some.injEq,
      Prod.mk.injEq] at hp
    obtain ⟨hres, hst⟩ := hp
    subst hst
    subst hres
    constructor
    · constructor
      · intro _
        exact ⟨_, rfl⟩
      · intro _
        refine ⟨ParseMessage.new 0 .DirectoryError path, by simp, rfl⟩
    · intro errs he
      injection he with he1
      subst he1
      simp only [hmsg]
      rfl
  | openFailure path =>
    simp only [GfaParser.parse, GfaParser.push_message, Option.some.injEq,
      Prod.mk.injEq] at hp
    obtain ⟨hres, hst⟩ := hp
    subst hst
    subst hres
    constructor
    · constructor
      · intro _
        exact ⟨_, rfl⟩
      · intro _
        refine ⟨ParseMessage.new 0 .IoError path, by simp, rfl⟩
    · intro errs he
      injection he with he1
      subst he1
      simp only [hmsg]
      rfl
  | lines path content =>
    simp only [GfaParser.parse] at hp
    cases hrp : GfaParser.run_passes
        { readLines st content |>.2 with
            max_lines := (readLines st content).1.length, namespace_index := [] }
        (readLines st content).1 options with
    | none =>
      rw [hrp] at hp
      simp at hp
    | some st2 =>
      rw [hrp] at hp
      simp only [] at hp
      split at hp
      · next hf =>
        simp only [Option.some.injEq, Prod.mk.injEq] at hp
        obtain ⟨hres, hst⟩ := hp
        subst hst
        subst hres
        simp only [List.any_eq_true, decide_eq_true_eq] at hf
        constructor
        · constructor
          · intro _
            exact ⟨_, rfl⟩
          · intro _
            exact hf
        · intro errs he
          injection he with he1
          subst he1
          rfl
      · next hf =>
        simp only [Option.some.injEq, Prod.mk.injEq] at hp
        obtain ⟨hres, hst⟩ := hp
        subst hst
        subst hres
        simp only [List.any_eq_true, decide_eq_true_eq] at hf
        constructor
        · constructor
          · intro hex
            exact absurd hex hf
          · intro hex
            obtain ⟨errs, habs⟩ := hex
            exact Except.noConfusion habs
        · intro errs habs
          exact Except.noConfusion habs

/-- C1, witness: the theorem instantiated on a fresh parser loading a
directory input. -/
theorem c1_load_err_iff_fatal_witness :
    GfaParser.new.messages = [] ∧
    GfaParser.parse GfaParser.new (FileInput.directory "p") ParseOptions.default
        = some (c1Res, c1St) ∧
    (((∃ m ∈ c1St.messages, m.severity = .Fatal) ↔
        (∃ errs, c1Res = .error errs)) ∧
      (∀ errs, c1Res = .error errs →
        errs = c1St.messages.filter (fun m => m.severity = .Fatal))) :=
  ⟨rfl, rfl,
    c1_load_err_iff_fatal GfaParser.new (.directory "p") ParseOptions.default
      c1Res c1St rfl rfl⟩

/-- C4, counterexample. The claim calls the tags admitted by pass 2 "the
five bridge tags L, J, C, F, E, G": the admitted set has six elements, not
five — it is exactly the bytes of `C E F G J L`. -/
theorem c4_pass_count_counterexample :
    (List.range 256).filter (fun t => !passSkips 2 t) = [67, 69, 70, 71, 74, 76] ∧
    ((List.range 256).filter (fun t => !passSkips 2 t)).length = 6 := by
  decide

/-- C4, amended. The loader runs exactly four passes over the full line
list, in original file order within each pass: the source pass loop
(`run_passes`) coincides with the spec-side description (`specRunPasses`)
in which pass 0 admits only `H` lines, pass 1 only `S`, pass 2 only the six
bridge tags `L J C F E G`, pass 3 only the trail tags `P W O U`, empty and
`#` lines are skipped in every pass, and a line failing to produce a record
is dropped; moreover the admission sets of distinct passes are disjoint, so
a line is never retried in a later pass. -/
theorem c4_pass_structure_amended :
    (∀ (st : GfaParser) (raw_lines : List (Nat × String)) (options : ParseOptions),
      st.run_passes raw_lines options = specRunPasses st raw_lines options) ∧
    (∀ p q tag, p < q → q ≤ 3 → specPassAdmits p tag = true →
      specPassAdmits q tag = false) := by
  constructor
  · intro st raw_lines options
    have hfe : GfaParser.process_pass_line = specProcessLine := by
      funext o p ost e
      exact process_pass_line_spec o p ost e
    simp only [GfaParser.run_passes, specRunPasses, hfe]
  · intro p q tag h1 h2 hadm
    have hp : p ≤ 2 := by omega
    interval_cases p <;> interval_cases q <;>
      simp only [specPassAdmits, decide_eq_true_eq, decide_eq_false_iff_not] at hadm ⊢ <;>
      omega

/-- C4, witness: the amended theorem instantiated on a one-line header file
and on the pass pair (0, 2) at the `H` tag. -/
theorem c4_pass_structure_amended_witness :
    (GfaParser.new.run_passes [(1, "H\tVN:Z:1.0")] ParseOptions.default
      = specRunPasses GfaParser.new [(1, "H\tVN:Z:1.0")] ParseOptions.default) ∧
    (0 < 2 ∧ 2 ≤ 3 ∧ specPassAdmits 0 72 = true ∧ specPassAdmits 2 72 = false) :=
  ⟨c4_pass_structure_amended.1 GfaParser.new [(1, "H\tVN:Z:1.0")] ParseOptions.default,
   by decide, by decide, by decide,
   c4_pass_structure_amended.2 0 2 72 (by decide) (by decide) (by decide)⟩

/-- C6. Whenever the bridge reconciliation engine (`parse_generic_bridge`)
returns a bridge record, the adjacency lists of the final builder state are
symmetric: if the bridge's resolved from-segment name resolves to a segment,
that segment's outgoing adjacency list for the bridge's kind (the
containments list for Containment) contains the bridge's line number, and if
the resolved to-segment name resolves to a segment, that segment's incoming
list for the kind (contained_by for Containment) contains it. -/
theorem c6_bridge_adjacency :
    ∀ (gfa : GfaParser) (parts : BridgeParts) (raw : String) (n : Nat)
      (map : TagMap) (options : ParseOptions) (b : GenericBridge)
      (errs : List ParseMessage) (gfa' : GfaParser) (map' : TagMap),
      parse_generic_bridge gfa parts raw n map options =
        (some b, errs, gfa', map') →
      (∀ s, gfa'.find_segment_with_name b.from_segment = some s →
        n ∈ outgoingList parts.bridge_type s) ∧
      (∀ s, gfa'.find_segment_with_name b.to_segment = some s →
        n ∈ incomingList parts.bridge_type s) := by
  intro gfa parts raw n map options b errs gfa' map' hp
  simp only [parse_generic_bridge] at hp
  split at hp
  · exact absurd hp (by simp)
  · next errs0 gfaR fromR toR heq =>
    repeat' split at hp
    all_goals
      simp only [Option.some.injEq, Prod.mk.injEq] at hp
      obtain ⟨hb, hE, hG, hM⟩ := hp
      subst hb
      subst hG
      constructor
      · intro s hs
        first
        | rw [find_after_push_message] at hs
        | rw [find_after_ensure] at hs
        | skip
        rcases modify_find_other _ toR fromR _ s hs with h1 | ⟨s1, h1, rfl⟩
        · rcases modify_find_same _ fromR _ s h1 with ⟨s2, h2, rfl⟩
          exact mem_outgoing_register parts.bridge_type n s2
        · rcases modify_find_same _ fromR _ s1 h1 with ⟨s2, h2, rfl⟩
          rw [outgoing_register_incoming]
          exact mem_outgoing_register parts.bridge_type n s2
      · intro s hs
        first
        | rw [find_after_push_message] at hs
        | rw [find_after_ensure] at hs
        | skip
        rcases modify_find_same _ toR _ s hs with ⟨s1, h1, rfl⟩
        exact mem_incoming_register parts.bridge_type n s1

/-- C6, witness: the theorem instantiated on a Link from `s1+` to `s2+`
reconciled against a builder holding both segments. -/
theorem c6_bridge_adjacency_witness :
    (parse_generic_bridge c6State c6Parts "L" 10 TagMap.new ParseOptions.default
      = (some c6Bridge, [], c6ParsedSt, c6ParsedMap)) ∧
    ((∀ s, c6ParsedSt.find_segment_with_name c6Bridge.from_segment = some s →
        10 ∈ outgoingList c6Parts.bridge_type s) ∧
     (∀ s, c6ParsedSt.find_segment_with_name c6Bridge.to_segment = some s →
        10 ∈ incomingList c6Parts.bridge_type s)) :=
  ⟨rfl, c6_bridge_adjacency c6State c6Parts "L" 10 TagMap.new ParseOptions.default
      c6Bridge [] c6ParsedSt c6ParsedMap rfl⟩

/-- C9. On the single-bridge state (segments `s1`, `s2`, one registered
bridge of the given kind from `s1+` to `s2+`), `is_step_valid` invoked with
overlap reporting on accepts the step for every bridge kind, and a
`WalkLinkHasOverlap` diagnostic is emitted iff the bridge is a Link whose
overlap differs from the literal `0M` token (quantified over all overlap
strings) or an Edge (always reported); a matching Jump or Gap never
triggers the diagnostic, and emitting it never flips the returned validity
bit. -/
theorem c9_step_validator_overlap :
    (∀ ov : String,
      (fun r => (r.1, hasCode r.2.messages .WalkLinkHasOverlap))
          ((singleBridgeState (plainLink ov)).is_step_valid 7 "s1" "s2"
            true true true true true true true)
        = (true, !(ov == "0M"))) ∧
    (fun r => (r.1, hasCode r.2.messages .WalkLinkHasOverlap))
        ((singleBridgeState plainEdge).is_step_valid 7 "s1" "s2"
          true true true true true true true) = (true, true) ∧
    (fun r => (r.1, hasCode r.2.messages .WalkLinkHasOverlap))
        ((singleBridgeState plainJump).is_step_valid 7 "s1" "s2"
          true true true true true true true) = (true, false) ∧
    (fun r => (r.1, hasCode r.2.messages .WalkLinkHasOverlap))
        ((singleBridgeState plainGap).is_step_valid 7 "s1" "s2"
          true true true true true true true) = (true, false) := by
  refine ⟨?_, by decide, by decide, by decide⟩
  intro ov
  by_cases h : ov = "0M"
  · subst h
    decide
  · simp [singleBridgeState, plainLink, GfaParser.is_step_valid,
      GfaParser.find_segment_with_name, GfaParser.is_step_valid_loop,
      GfaParser.find_record, bridgeStepData, hasCode, GfaParser.push_message, h,
      GfaParser.new, mapLookup, Link.default, Segment.default,
      GfaRecord.as_link, GfaRecord.as_jump, GfaRecord.as_gap,
      GfaRecord.as_segment, List.find?, Option.bind, List.any,
      ParseMessage.new]

/-- C2, counterexample. The claim asserts that parsing
`P\tpath1\ts1+,s2+\t*` when no Link connects `s1` to `s2` and implicit
links are disallowed yields a `LinkNotFound` Severe diagnostic. On the
concrete file with segments `s1`, `s2`, no links, and that path line, the
load produces no `LinkNotFound` message at all (the path is still retained
with its two steps): `path.rs` only reports `LinkNotFound` when a
reversed/complemented link exists. -/
theorem c2_link_not_found_counterexample :
    pathLinkObs pathNoLinkFile (optionsImplicit false) = some (false, [2]) := by
  decide

/-- C2, amended. For every builder state, step-pair names/orientations and
incoming-link list, the per-pair link scan of `path.rs` satisfies: the
`LinkNotFound` guard (no exact flag, implicit flag set, option disabled)
holds iff no incoming Link matches the pair exactly, a complemented Link
(same from/to segments, step orientations negating the link's
opposite-endpoint orientations — for `s1+ -> s2+` the record
`L s1 - s2 -`) does exist, and the allow-implicit-links option is
disabled. End to end, for both option values: no link at all, an exactly
matching link, or both links yield no diagnostic; only the complemented
link alone yields the Severe `LinkNotFound` diagnostic, and exactly when
the option is off; the Path is retained with its two steps in every
case. -/
theorem c2_link_not_found_amended :
    (∀ (gfa : GfaParser) (prevName currName : String) (prevOr currOr : Bool)
       (links : List Nat) (fl fi allow : Bool),
      pathLinkFlagsAux gfa prevName currName prevOr currOr links false false =
        some (fl, fi) →
      ((¬ fl = true ∧ (fi = true ∧ ¬ allow = true)) ↔
       (¬ (∃ ln ∈ links,
             linkMatchesStep gfa prevName currName prevOr currOr ln = true) ∧
        (∃ ln ∈ links,
           linkMatchesStepImplicit gfa prevName currName prevOr currOr ln = true) ∧
        allow = false))) ∧
    (∀ allow : Bool,
      pathLinkObs pathNoLinkFile (optionsImplicit allow) = some (false, [2]) ∧
      pathLinkObs pathMatchLinkFile (optionsImplicit allow) = some (false, [2]) ∧
      pathLinkObs pathBothLinksFile (optionsImplicit allow) = some (false, [2]) ∧
      pathLinkObs pathReverseLinkFile (optionsImplicit allow) =
        some (!allow, [2]) ∧
      ParseMessageCode.LinkNotFound.getMessageSeverity = .Severe) := by
  constructor
  · intro gfa prevName currName prevOr currOr links fl fi allow h
    obtain ⟨h1, h2⟩ := pathLinkFlagsAux_spec gfa prevName currName prevOr currOr
      links false false fl fi h
    subst h1
    subst h2
    simp [List.any_eq_true, Bool.not_eq_true, and_assoc]
  · intro allow
    cases allow <;>
      exact ⟨by decide, by decide, by decide, by decide, by decide⟩

/-- C2, witness: the guard characterization instantiated on a builder
holding one complemented link `s1- -> s2-` scanned for the step pair
`s1+ -> s2+` with implicit links disallowed. -/
theorem c2_link_not_found_amended_witness :
    (pathLinkFlagsAux c2Gfa "s1" "s2" true true [4] false false =
      some (false, true)) ∧
    ((¬ false = true ∧ (true = true ∧ ¬ false = true)) ↔
     (¬ (∃ ln ∈ [4],
           linkMatchesStep c2Gfa "s1" "s2" true true ln = true) ∧
      (∃ ln ∈ [4],
         linkMatchesStepImplicit c2Gfa "s1" "s2" true true ln = true) ∧
      false = false)) :=
  ⟨rfl, c2_link_not_found_amended.1 c2Gfa "s1" "s2" true true [4] false true false rfl⟩

/-- C3, counterexample. The claim asserts that boundary-touching ranges
`[0,50)` and `[50,100)` produce no `OverlappingWalkRange` diagnostic. On
the concrete two-walk file they do produce one (both walks are still
stored): the comparison in `walk.rs` is inclusive on both ends. -/
theorem c3_overlapping_walk_counterexample :
    (GfaParser.parse GfaParser.new walkBoundaryFile ParseOptions.default).map
      (fun r => (hasCode r.2.messages .OverlappingWalkRange, r.2.walks.length)) =
    some (true, 2) := by
  decide

/-- C3, amended. For walks sharing the same (sample, haplotype-index,
sequence-id) triple with both range bounds defined, parsing the second
produces an `OverlappingWalkRange` diagnostic iff the ranges intersect
with both comparisons inclusive — new-start ≤ previous-end and
previous-start ≤ new-end — so ranges `[0,100)` and `[50,150)` produce the
diagnostic, and boundary-touching ranges `[0,50)` and `[50,100)` also
produce it. -/
theorem c3_overlapping_walk_amended :
    (∀ (sample seq : String) (hap ln n a b c d : Nat),
      hasCode (Walk.check_overlapping_ranges [storedWalk sample hap seq a b ln]
        n sample hap seq c d) .OverlappingWalkRange = true ↔ (c ≤ b ∧ a ≤ d)) ∧
    ((GfaParser.parse GfaParser.new walkOverlapFile ParseOptions.default).map
      (fun r => hasCode r.2.messages .OverlappingWalkRange) = some true) ∧
    ((GfaParser.parse GfaParser.new walkBoundaryFile ParseOptions.default).map
      (fun r => hasCode r.2.messages .OverlappingWalkRange) = some true) := by
  refine ⟨?_, by decide, by decide⟩
  intro sample seq hap ln n a b c d
  simp only [Walk.check_overlapping_ranges, storedWalk, hasCode, List.foldl,
    and_self, and_true, true_and, if_true]
  by_cases hc : c ≤ b ∧ d ≥ a ∨ a ≤ d ∧ b ≥ c
  · rw [if_pos hc]
    simp only [List.nil_append, List.any_cons, List.any_nil, Bool.or_false,
      ParseMessage.new, decide_eq_true_eq]
    constructor
    · intro _
      rcases hc with ⟨h1, h2⟩ | ⟨h1, h2⟩
      · exact ⟨h1, h2⟩
      · exact ⟨h2, h1⟩
    · intro _
      trivial
  · rw [if_neg hc]
    simp only [List.any_nil, Bool.false_eq_true, false_iff]
    intro hcontra
    exact hc (Or.inl ⟨hcontra.1, hcontra.2⟩)

/-- C5, amended. A name routed through `ensure_name_unique` is unique at
assignment when fresh; a colliding name with stored occurrence counter
`k` is deterministically renamed to `name_(k+1)` (first collision of a
registered name yields `name_1`, the next `name_2`), the counter and the
generated name are registered and a `NamespaceCollision` message is
recorded — but the generated name is not re-checked against the
namespace, so uniqueness at assignment is only guaranteed when the
generated name was not itself already registered. -/
theorem c5_ensure_name_unique_amended :
    ∀ (st : GfaParser) (n : Nat) (name : String),
      (mapLookup st.name_space name = none →
        (st.ensure_name_unique n name).1 = name ∧
        mapLookup (st.ensure_name_unique n name).2.name_space name = some 0 ∧
        (∀ k : String, (mapLookup st.name_space k).isSome →
          (st.ensure_name_unique n name).1 ≠ k)) ∧
      (∀ occurrence : Nat, mapLookup st.name_space name = some occurrence →
        (st.ensure_name_unique n name).1 =
          name ++ "_" ++ toString (occurrence + 1) ∧
        mapLookup (st.ensure_name_unique n name).2.name_space name =
          some (occurrence + 1) ∧
        mapLookup (st.ensure_name_unique n name).2.name_space
          (name ++ "_" ++ toString (occurrence + 1)) = some 0 ∧
        (st.ensure_name_unique n name).2.messages =
          st.messages ++ [ParseMessage.new n .NamespaceCollision name] ∧
        (mapLookup st.name_space (name ++ "_" ++ toString (occurrence + 1)) = none →
          ∀ k : String, (mapLookup st.name_space k).isSome →
            (st.ensure_name_unique n name).1 ≠ k)) ∧
      ((((GfaParser.new.ensure_name_unique 1 "s").2.ensure_name_unique 2
          "s").1 = "s_1") ∧
       ((((GfaParser.new.ensure_name_unique 1 "s").2.ensure_name_unique 2
          "s").2.ensure_name_unique 3 "s").1 = "s_2")) := by
  intro st n name
  refine ⟨?_, ?_, by decide, by decide⟩
  · intro h
    have e1 : (st.ensure_name_unique n name).1 = name := by
      simp only [GfaParser.ensure_name_unique, h]
    have e2 : (st.ensure_name_unique n name).2.name_space =
        mapInsert st.name_space name 0 := by
      simp only [GfaParser.ensure_name_unique, h]
    refine ⟨e1, ?_, ?_⟩
    · rw [e2]
      exact mapLookup_insert_self _ _ _
    · intro k hk
      rw [e1]
      intro he
      rw [he] at h
      rw [h] at hk
      simp at hk
  · intro occurrence h
    have hne : name ≠ name ++ "_" ++ toString (occurrence + 1) :=
      fun he => string_append_underscore_ne name (toString (occurrence + 1)) he.symm
    have e1 : (st.ensure_name_unique n name).1 =
        name ++ "_" ++ toString (occurrence + 1) := by
      simp only [GfaParser.ensure_name_unique, h]
    have e2 : (st.ensure_name_unique n name).2.name_space =
        mapInsert (mapInsert st.name_space name (occurrence + 1))
          (name ++ "_" ++ toString (occurrence + 1)) 0 := by
      simp only [GfaParser.ensure_name_unique, h, GfaParser.push_message]
    have e3 : (st.ensure_name_unique n name).2.messages =
        st.messages ++ [ParseMessage.new n .NamespaceCollision name] := by
      simp only [GfaParser.ensure_name_unique, h, GfaParser.push_message]
    refine ⟨e1, ?_, ?_, e3, ?_⟩
    · rw [e2, mapLookup_insert_ne _ _ _ _ hne, mapLookup_insert_self]
    · rw [e2]
      exact mapLookup_insert_self _ _ _
    · intro hfresh k hk
      rw [e1]
      intro he
      rw [← he] at hk
      rw [hfresh] at hk
      simp at hk

/-- C5, amended, witness: instantiation at a fresh name and at the first
collision of `"s"` in an otherwise empty registry. -/
theorem c5_ensure_name_unique_amended_witness :
    ((mapLookup GfaParser.new.name_space "q" = none) ∧
     (GfaParser.new.ensure_name_unique 1 "q").1 = "q") ∧
    ((mapLookup (GfaParser.new.ensure_name_unique 1 "s").2.name_space "s" =
        some 0) ∧
     ((GfaParser.new.ensure_name_unique 1 "s").2.ensure_name_unique 2 "s").1 =
        "s" ++ "_" ++ toString (0 + 1)) :=
  ⟨⟨by decide,
    ((c5_ensure_name_unique_amended GfaParser.new 1 "q").1 (by decide)).1⟩,
   ⟨by decide,
    (((c5_ensure_name_unique_amended
        (GfaParser.new.ensure_name_unique 1 "s").2 2 "s").2.1) 0 (by decide)).1⟩⟩

/-- C5, counterexample. The claim asserts every name assigned through
`ensure_name_unique` is globally unique among registered names at the
moment of assignment. Registering `s_1`, then `s`, then `s` again makes
the third call return `s_1` — a name already registered at that moment
(the generated name is never re-checked). -/
theorem c5_ensure_name_unique_counterexample :
    ((((GfaParser.new.ensure_name_unique 1 "s_1").2.ensure_name_unique 2
        "s").2.ensure_name_unique 3 "s").1 = "s_1") ∧
    ((mapLookup ((GfaParser.new.ensure_name_unique 1 "s_1").2.ensure_name_unique 2
        "s").2.name_space "s_1").isSome = true) := by
  exact ⟨by decide, by decide⟩

/-- C7, counterexample. The claim asserts every ghost segment is
registered under a name unique in the namespace. In `ghostCollisionFile`
the name `x` is registered by a Link `ID` tag and a segment `x_1` exists,
so the ghost synthesized for the missing endpoint `x` is renamed to `x_1`,
leaving two stored segments named `x_1`; the load still succeeds. -/
theorem c7_ghost_name_counterexample :
    (GfaParser.parse GfaParser.new ghostCollisionFile ParseOptions.default).map
      (fun r => ((match r.1 with | .ok _ => true | _ => false),
                 ((r.2.records.filterMap GfaRecord.as_segment).filter
                   (fun s => s.name = "x_1")).length)) =
    some (true, 2) := by
  decide

/-- C7, amended. Every ghost segment created by `create_ghost_segment` has
resolved length 0, carries the ghost flag, is registered so that looking up
its synthesized name yields the ghost, and has occurrence counter 0 in the
name occurrence map; the synthesized name is the original name when that
name was unused, and the original name suffixed with an underscore and the
bumped occurrence counter on a collision (the generated name is not
re-checked, so it is not guaranteed unique among stored records — see the
counterexample). During bridge ghost recovery the synthesized name replaces
the original endpoint token: the bridge record resolved over `c7State`
carries `x_1`, not `x`. -/
theorem c7_ghost_segment_amended :
    (∀ (st : GfaParser) (nm : String) (g : Segment) (st' : GfaParser),
      st.create_ghost_segment nm = (g, st') →
      g.get_length = 0 ∧
      g.tags.has_flag "ghost" = true ∧
      st'.find_segment_with_name g.name = some g ∧
      mapLookup st'.name_space g.name = some 0 ∧
      (mapLookup st.name_space nm = none → g.name = nm) ∧
      (∀ k, mapLookup st.name_space nm = some k →
        g.name = nm ++ "_" ++ toString (k + 1))) ∧
    (parse_generic_bridge c7State c7Parts "L" 10 TagMap.new
        ParseOptions.default).1.map GenericBridge.from_segment = some "x_1" := by
  constructor
  · intro st nm g st' hp
    cases hk : mapLookup st.name_space nm with
    | none =>
      simp only [GfaParser.create_ghost_segment, GfaParser.get_available_line_no,
        GfaParser.ensure_name_unique, hk, Prod.mk.injEq] at hp
      obtain ⟨hg, hs⟩ := hp
      subst hg
      subst hs
      refine ⟨rfl, rfl, ?_, ?_, fun _ => rfl, fun k hkk => ?_⟩
      · rw [find_segment_bind]
        simp only [mapLookup_insert_self, Option.some_bind]
        rw [List.get?_concat_length]
        rfl
      · exact mapLookup_insert_self _ _ _
      · exact Option.noConfusion hkk
    | some k0 =>
      simp only [GfaParser.create_ghost_segment, GfaParser.get_available_line_no,
        GfaParser.ensure_name_unique, GfaParser.push_message, hk,
        Prod.mk.injEq] at hp
      obtain ⟨hg, hs⟩ := hp
      subst hg
      subst hs
      refine ⟨rfl, rfl, ?_, ?_, fun hno => ?_, fun k hkk => ?_⟩
      · rw [find_segment_bind]
        simp only [mapLookup_insert_self, Option.some_bind]
        rw [List.get?_concat_length]
        rfl
      · exact mapLookup_insert_self _ _ _
      · exact Option.noConfusion hno
      · injection hkk with hkk1
        subst hkk1
        rfl
  · decide

/-- C7, witness: the amended theorem instantiated on the ghost created for
`x` over `c7State`. -/
theorem c7_ghost_segment_amended_witness :
    c7Ghost.get_length = 0 ∧
    c7Ghost.tags.has_flag "ghost" = true ∧
    c7GhostSt.find_segment_with_name c7Ghost.name = some c7Ghost ∧
    mapLookup c7GhostSt.name_space c7Ghost.name = some 0 ∧
    (mapLookup c7State.name_space "x" = none → c7Ghost.name = "x") ∧
    (∀ k, mapLookup c7State.name_space "x" = some k →
      c7Ghost.name = "x" ++ "_" ++ toString (k + 1)) :=
  c7_ghost_segment_amended.1 c7State "x" c7Ghost c7GhostSt rfl

/-- C8, counterexample. The claim asserts the walk step validator allows
Link, Edge and Gap bridges. On a file whose only bridge between the walk
steps is a matching Edge (stored in the graph), the walk check still
reports `LinkNotFound`: `walk.rs` invokes `is_step_valid` with
`allow_edges = false`. -/
theorem c8_walk_validator_counterexample :
    (GfaParser.parse GfaParser.new (walkBridgeFile .Edge)
        walkIgnoreBridgeOptions).map
      (fun r => ((r.2.records.filterMap GfaRecord.as_edge).length,
                 hasCode r.2.messages .LinkNotFound)) =
    some (1, true) := by
  decide

/-- C8, amended. Each consecutive walk step pair is checked through the
Step Validator with exactly the Link and Gap adjacency kinds allowed —
Jump and Edge (and Containment) are excluded — and with overlap reporting
enabled: across the five bridge kinds, a matching bridge satisfies the
step pair iff it is a Link or a Gap. -/
theorem c8_walk_validator_amended :
    ∀ k : BridgeType,
      (GfaParser.parse GfaParser.new (walkBridgeFile k)
          walkIgnoreBridgeOptions).map
        (fun r => hasCode r.2.messages .LinkNotFound) =
      some (decide (¬ (k = .Link ∨ k = .Gap))) := by
  intro k
  cases k <;> decide

/-- C10, counterexample. The claim asserts a failed `add_line` appends no
record. Adding the walk line `W a 0 s * * >s1>>s2` to a fresh builder
under the default options fails (`Err`), yet one record — the ghost
segment synthesized for `s1` during the failed parse — remains appended. -/
theorem c10_add_line_counterexample :
    (GfaParser.add_line GfaParser.new ghostThenFailLine ParseOptions.default).map
      (fun r => ((match r.1 with | .error _ => true | .ok _ => false),
                 r.2.records.length)) =
    some (true, 1) := by
  decide

/-- C10, amended. A failed `add_line` returns the diagnostics in `Err`
and appends no record for the failed line itself, but records synthesized
as recovery during the failed parse (here a ghost segment) remain
appended; the synthetic line-number counter is advanced before parsing
(and further by ghost creation) and is not rolled back, so the consumed
line numbers are skipped by the next insertion; and the diagnostics
returned in `Err` are not retained in `messages`. -/
theorem c10_add_line_amended :
    (GfaParser.add_line GfaParser.new ghostThenFailLine ParseOptions.default).map
      (fun r =>
        ((match r.1 with
          | .error errs => (hasCode errs .SegmentNotFound, hasCode errs .InvalidWalk)
          | .ok _ => (false, false)),
         r.2.messages.length,
         r.2.max_lines,
         (r.2.records.filterMap GfaRecord.as_segment).map
           (fun s => s.tags.has_flag "ghost"),
         (r.2.add_line "S\ts3\tA" ParseOptions.default).map
           (fun r2 => match r2.1 with | .ok k => k | .error _ => 0))) =
    some ((true, true), 0, 2, [true], some 3) := by
  decide

end Parfait
